import Mathlib

/-!
# Khan Bank ledger: balance, transfers and dual-backend persistence

A shallow embedding of `src/script.js` (the ledger globals `currentBalance` and
`transactions`, `saveData`, `loadData`, `addTransaction`, `processTransfer`) together
with the JavaScript built-ins these functions call.

Modelling conventions

* A JavaScript number is a `JSNum`: `NaN`, the two infinities, or a finite value, held
  as a rational.  Arithmetic and the reading of decimal literals round to the nearest
  IEEE binary64 value, ties to even, with underflow to zero and overflow to an infinity
  (`JSNum.round`).  The sign of zero is not represented.
* A JavaScript value that can sit in the ledger or in a parsed snapshot is a `JSVal`
  (JSON-shaped data whose numbers are `JSNum`).
* A text kept by a storage backend is a `Text`: it is represented by what
  `JSON.parse` makes of it (empty, rejected, or accepted with a value).  Accordingly
  `JSON.stringify` produces the text whose reading is the value with every non-finite
  number replaced by `null`.
* `parseFloat` first converts its argument to a string.  The conversion raises a
  `TypeError` on an object that has an own `toString` property (and on an array that
  contains one); otherwise the number read from the string is given directly.
* An operation that may raise returns a `Completion`; `try / catch` is a match on it.
* Each backend is a cell for the key `khan-bank-data` together with the behaviour of its
  methods (missing, raising, answering).  A raised value is `null` / `undefined` or
  anything else: the `catch` handlers read `e.message`, which itself raises on the
  former.
* Clock readings, `toUpperCase` and the presence of the history container come from the
  `Host`.
* Of the view layer only what can change the outcome is kept: the four form fields read
  by `processTransfer` (a `Page`) and the points where `loadTransactionHistory` raises
  on a history entry.  Alerts, console output and the other DOM writes are left out.
-/

namespace KhanBank

/-! ## Numbers -/

/-- A JavaScript number. -/
inductive JSNum
  | nan
  | negInf
  | fin (q : ℚ)
  | posInf
  deriving DecidableEq

/-- The integer nearest to `y`, the even one of the two when `y` lies half way. -/
def roundHalfEven (y : ℚ) : ℤ :=
  if y - ⌊y⌋ < 1 / 2 then ⌊y⌋
  else if 1 / 2 < y - ⌊y⌋ then ⌊y⌋ + 1
  else if ⌊y⌋ % 2 = 0 then ⌊y⌋ else ⌊y⌋ + 1

/-- The binary exponent of the spacing of the binary64 values around `x`: 52 below the
exponent of `x`, and not below the spacing of the subnormal values. -/
def quantumExp (x : ℚ) : ℤ := max (Int.log 2 |x|) (-1022) - 52

namespace JSNum

/-- The Number value for the real number `x`: the nearest binary64 value, ties to even,
an infinity from `2 ^ 1024` on. -/
def round (x : ℚ) : JSNum :=
  if x = 0 then fin 0
  else if (2 : ℚ) ^ (1024 : ℕ) ≤
      |(roundHalfEven (x / 2 ^ quantumExp x) : ℚ) * 2 ^ quantumExp x| then
    (if 0 < x then posInf else negInf)
  else fin ((roundHalfEven (x / 2 ^ quantumExp x) : ℚ) * 2 ^ quantumExp x)

/-- The global function `isNaN` on a number. -/
def isNaN : JSNum → Bool
  | nan => true
  | _ => false

/-- The comparison `a < b` of two numbers (false as soon as one is `NaN`). -/
def lt : JSNum → JSNum → Bool
  | nan, _ => false
  | _, nan => false
  | negInf, negInf => false
  | negInf, _ => true
  | fin _, negInf => false
  | fin a, fin b => decide (a < b)
  | fin _, posInf => true
  | posInf, _ => false

/-- The comparison `a <= b` of two numbers (false as soon as one is `NaN`). -/
def le : JSNum → JSNum → Bool
  | nan, _ => false
  | _, nan => false
  | negInf, _ => true
  | fin _, negInf => false
  | fin a, fin b => decide (a ≤ b)
  | fin _, posInf => true
  | posInf, posInf => true
  | posInf, _ => false

/-- The comparison `a > b`, which JavaScript evaluates as `b < a`. -/
def gt (a b : JSNum) : Bool := lt b a

/-- The subtraction `a - b` of two numbers. -/
def sub : JSNum → JSNum → JSNum
  | nan, _ => nan
  | _, nan => nan
  | fin a, fin b => round (a - b)
  | fin _, posInf => negInf
  | fin _, negInf => posInf
  | posInf, posInf => nan
  | posInf, _ => posInf
  | negInf, negInf => nan
  | negInf, _ => negInf

/-- Truthiness of a number: `NaN` and zero are falsy. -/
def truthy : JSNum → Bool
  | nan => false
  | fin q => decide (q ≠ 0)
  | _ => true

end JSNum

/-- The rational `q` is a finite value of the Number type: rounding leaves it as it is. -/
def IsDouble (q : ℚ) : Prop := JSNum.round q = .fin q

/-! ## Strings -/

/-- The code points removed by `String.prototype.trim` and skipped by `parseFloat`:
ECMAScript `WhiteSpace` and `LineTerminator`. -/
def isStrWhiteSpaceChar (c : Char) : Bool :=
  let n := c.toNat
  n == 0x9 || n == 0xA || n == 0xB || n == 0xC || n == 0xD || n == 0x20 || n == 0xA0
    || n == 0x1680 || (0x2000 ≤ n && n ≤ 0x200A) || n == 0x2028 || n == 0x2029
    || n == 0x202F || n == 0x205F || n == 0x3000 || n == 0xFEFF

/-- Characters of `s.trim()`. -/
def trimChars (cs : List Char) : List Char :=
  ((cs.dropWhile isStrWhiteSpaceChar).reverse.dropWhile isStrWhiteSpaceChar).reverse

/-- The method `s.trim()`. -/
def trim (s : String) : String := String.mk (trimChars s.data)

/-- The call `s.replace(/,/g, "")`: every comma is removed. -/
def removeCommas (s : String) : String := String.mk (s.data.filter (fun c => c != ','))

/-- Truthiness of a string: only the empty string is falsy. -/
def strTruthy (s : String) : Bool := !s.data.isEmpty

/-- The expression `a || b` on strings. -/
def strOr (a b : String) : String := if strTruthy a then a else b

/-- The call `String(n).padStart(2, "0")` for a natural number `n`. -/
def pad2 (n : Nat) : String :=
  let s := toString n
  if s.length < 2 then String.mk (List.replicate (2 - s.length) '0') ++ s else s

/-! ## parseFloat on strings -/

/-- A decimal digit `0` to `9`. -/
def isDecimalDigit (c : Char) : Bool := decide ('0'.toNat ≤ c.toNat) && decide (c.toNat ≤ '9'.toNat)

/-- Value of a run of decimal digits. -/
def digitsValue (ds : List Char) : Nat :=
  ds.foldl (fun n c => 10 * n + (c.toNat - '0'.toNat)) 0

/-- What `parseFloat` recognises at the start of a trimmed string: the longest
`StrDecimalLiteral`. -/
inductive StrDecimalLiteral
  | infinity (negative : Bool)
  | decimal (negative : Bool) (mantissa : Nat) (exponent : Int)
  deriving DecidableEq

/-- The optional `ExponentPart` at the start of `cs`: `e` or `E`, an optional sign and at
least one digit.  An incomplete exponent is not part of the literal and counts as zero. -/
def scanExponent (cs : List Char) : Int :=
  match cs with
  | [] => 0
  | c :: rest =>
    if c == 'e' || c == 'E' then
      match rest with
      | '+' :: ds =>
        if (ds.takeWhile isDecimalDigit).isEmpty then 0
        else Int.ofNat (digitsValue (ds.takeWhile isDecimalDigit))
      | '-' :: ds =>
        if (ds.takeWhile isDecimalDigit).isEmpty then 0
        else - Int.ofNat (digitsValue (ds.takeWhile isDecimalDigit))
      | ds =>
        if (ds.takeWhile isDecimalDigit).isEmpty then 0
        else Int.ofNat (digitsValue (ds.takeWhile isDecimalDigit))
    else 0

/-- The longest `StrUnsignedDecimalLiteral` at the start of `cs`, as mantissa and decimal
exponent, or `none` when there is none. -/
def scanUnsigned (cs : List Char) : Option (Option (Nat × Int)) :=
  if cs.take 8 = "Infinity".data then some none
  else
    let ip := cs.takeWhile isDecimalDigit
    let r1 := cs.dropWhile isDecimalDigit
    match r1 with
    | '.' :: r2 =>
      let fp := r2.takeWhile isDecimalDigit
      let r3 := r2.dropWhile isDecimalDigit
      if ip.isEmpty && fp.isEmpty then none
      else some (some (digitsValue (ip ++ fp), scanExponent r3 - Int.ofNat fp.length))
    | _ =>
      if ip.isEmpty then none
      else some (some (digitsValue ip, scanExponent r1))

/-- The longest `StrDecimalLiteral` at the start of `cs` (leading white space already
skipped). -/
def scanLiteral (cs : List Char) : Option StrDecimalLiteral :=
  let body (negative : Bool) (rest : List Char) : Option StrDecimalLiteral :=
    match scanUnsigned rest with
    | none => none
    | some none => some (.infinity negative)
    | some (some (m, e)) => some (.decimal negative m e)
  match cs with
  | '+' :: rest => body false rest
  | '-' :: rest => body true rest
  | _ => body false cs

/-- The mathematical value `m * 10 ^ e`. -/
def scale10 (m : Nat) (e : Int) : ℚ :=
  if 0 ≤ e then (m : ℚ) * 10 ^ e.toNat else (m : ℚ) / 10 ^ (-e).toNat

/-- Number denoted by a literal: its mathematical value, rounded. -/
def StrDecimalLiteral.value : StrDecimalLiteral → JSNum
  | .infinity false => .posInf
  | .infinity true => .negInf
  | .decimal false m e => JSNum.round (scale10 m e)
  | .decimal true m e => JSNum.round (- scale10 m e)

/-- The call `parseFloat(s)` on a string: skip leading white space, read the longest
decimal literal, `NaN` when there is none. -/
def parseFloatStr (s : String) : JSNum :=
  match scanLiteral (s.data.dropWhile isStrWhiteSpaceChar) with
  | none => .nan
  | some l => l.value

/-! ## Values, texts and JSON -/

/-- A JavaScript value as it occurs in the ledger and in parsed snapshots: JSON-shaped
data.  An object is its list of own properties, looked up by key. -/
inductive JSVal
  | null
  | bool (b : Bool)
  | num (n : JSNum)
  | str (s : String)
  | arr (items : List JSVal)
  | obj (props : List (String × JSVal))

/-- Outcome of an evaluation that may raise. -/
inductive Completion (α : Type)
  | normal (value : α)
  | abrupt (error : String)

namespace JSVal

/-- Truthiness (`ToBoolean`). -/
def truthy : JSVal → Bool
  | null => false
  | bool b => b
  | num n => n.truthy
  | str s => strTruthy s
  | arr _ => true
  | obj _ => true

/-- Property read `v.key`: `none` stands for `undefined`.  Only objects carry the keys
read by the program (`balance`, `transactions`, `lastUpdate` and the record fields). -/
def get (v : JSVal) (key : String) : Option JSVal :=
  match v with
  | obj props => props.lookup key
  | _ => none

mutual
/-- What `JSON.parse(JSON.stringify(v))` yields: a number that is not finite is written
as `null`, everything else is kept. -/
def jsonImage : JSVal → JSVal
  | null => null
  | bool b => bool b
  | num (.fin q) => num (.fin q)
  | num _ => null
  | str s => str s
  | arr items => arr (jsonImageList items)
  | obj props => obj (jsonImageProps props)
/-- The map of `jsonImage` over the items of an array. -/
def jsonImageList : List JSVal → List JSVal
  | [] => []
  | v :: rest => jsonImage v :: jsonImageList rest
/-- The map of `jsonImage` over the properties of an object. -/
def jsonImageProps : List (String × JSVal) → List (String × JSVal)
  | [] => []
  | (k, v) :: rest => (k, jsonImage v) :: jsonImageProps rest
end

mutual
/-- Every number inside the value is finite, so that JSON can write it. -/
def jsonSafe : JSVal → Bool
  | num (.fin _) => true
  | num _ => false
  | arr items => jsonSafeList items
  | obj props => jsonSafeProps props
  | _ => true
/-- All items are `jsonSafe`. -/
def jsonSafeList : List JSVal → Bool
  | [] => true
  | v :: rest => jsonSafe v && jsonSafeList rest
/-- All property values are `jsonSafe`. -/
def jsonSafeProps : List (String × JSVal) → Bool
  | [] => true
  | (_, v) :: rest => jsonSafe v && jsonSafeProps rest
end

mutual
/-- Whether `ToString(v)` raises a `TypeError`.  An object with an own `toString`
property (never callable in parsed JSON) has no usable conversion method; an array is
joined, which converts every item. -/
def toStringRaises : JSVal → Bool
  | obj props => (props.lookup "toString").isSome
  | arr items => toStringRaisesList items
  | _ => false
/-- Some item of the array raises when converted. -/
def toStringRaisesList : List JSVal → Bool
  | [] => false
  | v :: rest => toStringRaises v || toStringRaisesList rest
end

mutual
/-- The number `parseFloat` reads from `ToString(v)` when the conversion does not raise.
A number prints and reads back as itself; `null`, a boolean and a plain object print as
`null`, `true` / `false` and `[object Object]`, none of which starts a literal; an array
prints its items separated by commas, so only the first item is read. -/
def parseFloatOf : JSVal → JSNum
  | num n => n
  | str s => parseFloatStr s
  | arr items => parseFloatHead items
  | _ => .nan
/-- The number read from the first item of an array. -/
def parseFloatHead : List JSVal → JSNum
  | [] => .nan
  | v :: _ => parseFloatOf v
end

end JSVal

/-- The call `parseFloat(v)`. -/
def parseFloat (v : JSVal) : Completion JSNum :=
  if v.toStringRaises then .abrupt "TypeError" else .normal v.parseFloatOf

/-- A string held by a storage backend, seen through `JSON.parse`. -/
inductive Text
  | empty
  | malformed
  | json (v : JSVal)

/-- Truthiness of a stored string. -/
def Text.truthy : Text → Bool
  | .empty => false
  | _ => true

/-- The call `JSON.parse(t)`. -/
def JSON.parse : Text → Completion JSVal
  | .json v => .normal v
  | _ => .abrupt "SyntaxError"

/-- The call `JSON.stringify(v)` on ledger data. -/
def JSON.stringify (v : JSVal) : Text := .json v.jsonImage

/-! ## Ledger state and environment -/

/-- The globals `currentBalance` and `transactions`. -/
structure Ledger where
  currentBalance : JSNum
  transactions : List JSVal

/-- The seed state of the script: balance 400000000.00 and no history. -/
def Ledger.initial : Ledger := { currentBalance := .fin 400000000, transactions := [] }

/-- A value raised by a backend call: `null` or `undefined`, or any other value (an
`Error` object as a rule). -/
inductive Thrown
  | nullish
  | error

/-- The read `e.message` made by the `catch (e)` handlers of `saveData` and `loadData`: a
`TypeError` when `e` is `null` or `undefined`. -/
def Thrown.message : Thrown → Completion Unit
  | .nullish => .abrupt "TypeError"
  | .error => .normal ()

/-- Outcome of a backend call. -/
inductive Reply (α : Type)
  | returned (value : α)
  | raised (e : Thrown)

/-- How `window.storage.set` behaves: it raises (the promise rejects) with some value, or
it answers with a truthy or falsy result, having stored the text or not. -/
inductive SetBehaviour
  | raises (e : Thrown)
  | replies (truthy : Bool) (stores : Bool)

/-- How `window.storage.get` behaves: it raises (the promise rejects) with some value, or
it answers from the cell: nothing when the cell is empty, otherwise an object whose
`value` is the stored text. -/
inductive GetBehaviour
  | raises (e : Thrown)
  | reads

/-- Backend A, `window.storage`.  A method is `none` when `window.storage` or the method
itself is missing. -/
structure Primary where
  setFn : Option SetBehaviour
  getFn : Option GetBehaviour
  cell : Option Text

/-- Backend B, `localStorage`, under the key `khan-bank-data`.  A method raises the given
value, or does not raise (`none`). -/
structure Fallback where
  setItemRaises : Option Thrown
  getItemRaises : Option Thrown
  cell : Option Text

/-- The two storage backends. -/
structure Storage where
  primary : Primary
  fallback : Fallback

/-- The fields of the reference-timezone date read by `formatMongoliaDateTime`. -/
structure MongoliaTime where
  fullYear : Nat
  month : Nat
  date : Nat
  hours : Nat
  minutes : Nat

/-- Host readings and built-ins that the script takes from its environment;
`historyContainer` tells whether the document has the element `.transactions` that
`loadTransactionHistory` fills. -/
structure Host where
  dateNow : Nat
  mongoliaTime : MongoliaTime
  isoString : String
  toUpperCase : String → String
  historyContainer : Bool

/-- The form fields read by `processTransfer`; a field is `none` when its element is not
in the document. -/
structure Page where
  amountInput : Option String
  recipientNameInput : Option String
  recipientAccountInput : Option String
  descriptionInput : Option String

/-- Result of running a function of the script: its completion and the globals and
backends it leaves behind. -/
structure Run (α : Type) where
  result : Completion α
  ledger : Ledger
  storage : Storage

/-! ## Storage backends -/

/-- The awaited call `window.storage.set("khan-bank-data", t)`; its result is reduced to
its truthiness. -/
def Primary.set (p : Primary) (b : SetBehaviour) (t : Text) : Reply Bool × Primary :=
  match b with
  | .raises e => (.raised e, p)
  | .replies truthy stores => (.returned truthy, if stores then { p with cell := some t } else p)

/-- The awaited call `window.storage.get("khan-bank-data")`; `none` is a falsy result,
`some t` a result object whose `value` is `t`. -/
def Primary.get (p : Primary) (b : GetBehaviour) : Reply (Option Text) :=
  match b with
  | .raises e => .raised e
  | .reads => .returned p.cell

/-- The call `localStorage.setItem("khan-bank-data", t)`. -/
def Fallback.setItem (f : Fallback) (t : Text) : Reply Unit × Fallback :=
  match f.setItemRaises with
  | some e => (.raised e, f)
  | none => (.returned (), { f with cell := some t })

/-- The call `localStorage.getItem("khan-bank-data")`; `none` is `null`. -/
def Fallback.getItem (f : Fallback) : Reply (Option Text) :=
  match f.getItemRaises with
  | some e => .raised e
  | none => .returned f.cell

/-! ## Persistence -/

/-- The object `data` that `saveData` serialises. -/
def snapshot (balance : JSNum) (transactions : List JSVal) (lastUpdate : String) : JSVal :=
  .obj [("balance", .num balance), ("transactions", .arr transactions),
    ("lastUpdate", .str lastUpdate)]

/-- The `window.storage` block of `saveData` (lines 17 to 26): the value of
`storageSuccess`, or the `TypeError` that leaves the handler when it reads the message of
a `null` or `undefined` rejection. -/
def savePrimary (p : Primary) (dataString : Text) : Completion Bool × Primary :=
  match p.setFn with
  | none => (.normal false, p)
  | some b =>
    match p.set b dataString with
    | (.returned result, p1) => (.normal result, p1)
    | (.raised e, p1) =>
      match e.message with
      | .normal _ => (.normal false, p1)
      | .abrupt err => (.abrupt err, p1)

/-- The `localStorage` block of `saveData` (lines 28 to 35): the value of
`localStorageSuccess`, or the `TypeError` that leaves the handler. -/
def saveFallback (f : Fallback) (dataString : Text) : Completion Bool × Fallback :=
  match f.setItem dataString with
  | (.returned _, f1) => (.normal true, f1)
  | (.raised e, f1) =>
    match e.message with
    | .normal _ => (.normal false, f1)
    | .abrupt err => (.abrupt err, f1)

/-- The function `saveData` (script.js lines 7 to 50).  Whatever raises inside the outer
`try` ends in the outer `catch`, which returns false. -/
def saveData (host : Host) (st : Ledger) (w : Storage) : Completion Bool × Storage :=
  match parseFloat (.num st.currentBalance) with
  | .abrupt _ => (.normal false, w)
  | .normal balance =>
    let dataString := JSON.stringify (snapshot balance st.transactions host.isoString)
    match savePrimary w.primary dataString with
    | (.abrupt _, p) => (.normal false, { primary := p, fallback := w.fallback })
    | (.normal storageSuccess, p) =>
      match saveFallback w.fallback dataString with
      | (.abrupt _, f) => (.normal false, { primary := p, fallback := f })
      | (.normal localStorageSuccess, f) =>
        if storageSuccess || localStorageSuccess then
          (.normal true, { primary := p, fallback := f })
        else
          (.normal false, { primary := p, fallback := f })

/-- The variable `data` of `loadData` after the `window.storage` block (lines 54 to 67),
or the `TypeError` that leaves the handler when it reads the message of a `null` or
`undefined` rejection. -/
def loadPrimary (p : Primary) : Completion JSVal :=
  match p.getFn with
  | none => .normal .null
  | some b =>
    match p.get b with
    | .raised e =>
      match e.message with
      | .normal _ => .normal .null
      | .abrupt err => .abrupt err
    | .returned none => .normal .null
    | .returned (some value) =>
      if value.truthy then
        match JSON.parse value with
        | .normal v => .normal v
        | .abrupt _ => .normal .null
      else .normal .null

/-- The variable `data` of `loadData` after the `localStorage` block (lines 69 to 80),
entered with `data` falsy, or the `TypeError` that leaves the handler. -/
def loadFallback (f : Fallback) (data : JSVal) : Completion JSVal :=
  match f.getItem with
  | .raised e =>
    match e.message with
    | .normal _ => .normal data
    | .abrupt err => .abrupt err
  | .returned none => .normal data
  | .returned (some localData) =>
    if localData.truthy then
      match JSON.parse localData with
      | .normal v => .normal v
      | .abrupt _ => .normal data
    else .normal data

/-- The reading part of `loadData` (lines 54 to 80): backend A first, backend B when
`data` is still falsy. -/
def loadRead (w : Storage) : Completion JSVal :=
  match loadPrimary w.primary with
  | .abrupt err => .abrupt err
  | .normal data => if !data.truthy then loadFallback w.fallback data else .normal data

/-- The snapshot that `loadData` selects, the value of `data` at line 82; `null`, as when
nothing was found, if a handler raised and the outer `catch` ended the load. -/
def loadSelect (w : Storage) : JSVal :=
  match loadRead w with
  | .normal data => data
  | .abrupt _ => .null

/-- The restoring part of `loadData` (lines 82 to 101) for the selected `data`; a raise in
the coercion of the balance ends in the outer `catch`, before anything is assigned. -/
def restoreFrom (st : Ledger) (data : JSVal) : Completion Bool × Ledger :=
  if data.truthy then
    let balance : Completion JSNum :=
      match data.get "balance" with
      | none => .normal st.currentBalance
      | some .null => .normal st.currentBalance
      | some b => parseFloat b
    match balance with
    | .abrupt _ => (.normal false, st)
    | .normal currentBalance =>
      let transactions :=
        match data.get "transactions" with
        | some (.arr items) => items
        | _ => st.transactions
      (.normal true, { currentBalance := currentBalance, transactions := transactions })
  else
    (.normal false, st)

/-- The function `loadData` (script.js lines 52 to 106).  It does not write to the
backends.  Whatever raises inside the outer `try` ends in the outer `catch`, which
returns false. -/
def loadData (st : Ledger) (w : Storage) : Completion Bool × Ledger :=
  match loadRead w with
  | .abrupt _ => (.normal false, st)
  | .normal data => restoreFrom st data

/-! ## Transactions -/

/-- The three strings returned by `formatMongoliaDateTime`. -/
structure MongoliaDateTime where
  fullDate : String
  date : String
  time : String

/-- The function `formatMongoliaDateTime` (lines 166 to 179), from the fields of
`getMongoliaTime()`. -/
def formatMongoliaDateTime (t : MongoliaTime) : MongoliaDateTime :=
  let year := toString t.fullYear
  let month := pad2 (t.month + 1)
  let day := pad2 t.date
  let hours := pad2 t.hours
  let minutes := pad2 t.minutes
  { fullDate := year ++ "/" ++ month ++ "/" ++ day ++ " " ++ hours ++ ":" ++ minutes
    date := year ++ "." ++ month ++ "." ++ day
    time := hours ++ ":" ++ minutes }

/-- The object `transaction` built by `addTransaction` (lines 185 to 195). -/
def newTransaction (host : Host) (currentBalance amount : JSNum)
    (recipientName recipientAccount description : String) : JSVal :=
  let mongoliaTime := formatMongoliaDateTime host.mongoliaTime
  .obj [("id", .num (.fin host.dateNow)),
    ("date", .str mongoliaTime.date),
    ("time", .str mongoliaTime.time),
    ("amount", .num amount),
    ("recipientName", .str recipientName),
    ("recipientAccount", .str recipientAccount),
    ("description", .str (strOr description "No description")),
    ("remainingBalance", .num currentBalance),
    ("timestamp", .str mongoliaTime.fullDate)]

/-! ## The history view -/

/-- The property names that every plain object inherits from `Object.prototype`. -/
def objectPrototypeKeys : List String :=
  ["constructor", "__defineGetter__", "__defineSetter__", "hasOwnProperty",
    "__lookupGetter__", "__lookupSetter__", "isPrototypeOf", "propertyIsEnumerable",
    "toString", "valueOf", "__proto__", "toLocaleString"]

namespace JSVal

mutual
/-- Whether `ToString(v)`, when it does not raise, is a property name inherited from
`Object.prototype`.  Only a string can be, or an array of one item that is (an array of
several items prints with commas). -/
def protoNamed : JSVal → Bool
  | str s => objectPrototypeKeys.contains s
  | arr items => protoNamedList items
  | _ => false
/-- The same for the items of an array. -/
def protoNamedList : List JSVal → Bool
  | [] => false
  | [v] => protoNamed v
  | _ :: _ :: _ => false
end

mutual
/-- Whether `v.toLocaleString(...)` raises for a value `v` other than `null` and
`undefined`.  An object raises when an own `toLocaleString` property hides the method, or
when the inherited method finds an own `toString` property in place of the method it
calls; an array asks every item that is not `null`. -/
def localeRaises : JSVal → Bool
  | obj props => (props.lookup "toLocaleString").isSome || (props.lookup "toString").isSome
  | arr items => localeRaisesList items
  | _ => false
/-- Some item of the array raises. -/
def localeRaisesList : List JSVal → Bool
  | [] => false
  | v :: rest => localeRaises v || localeRaisesList rest
end

end JSVal

/-- Whether grouping an entry under `transaction.date` raises (lines 220 to 223): the
key cannot be converted, or it names an inherited property, which is truthy and has no
`push`. -/
def dateKeyRaises : Option JSVal → Bool
  | none => false
  | some d => d.toStringRaises || d.protoNamed

/-- Whether inserting a field into the template text raises (lines 242 and 243). -/
def templateRaises : Option JSVal → Bool
  | none => false
  | some v => v.toStringRaises

/-- Whether `formatCurrency(x)` raises (lines 150 to 159, called at lines 244 and 246):
`formatNumber` calls `x.toLocaleString`, which `undefined` and `null` do not have. -/
def formatCurrencyRaises : Option JSVal → Bool
  | none => true
  | some .null => true
  | some v => v.localeRaises

/-- Whether grouping or rendering the history entry raises. -/
def entryRaises (transaction : JSVal) : Bool :=
  match transaction with
  | .null => true
  | _ =>
    dateKeyRaises (transaction.get "date") || templateRaises (transaction.get "time") ||
      templateRaises (transaction.get "description") ||
      formatCurrencyRaises (transaction.get "remainingBalance") ||
      formatCurrencyRaises (transaction.get "amount")

/-- The function `loadTransactionHistory` (lines 205 to 253), reduced to whether it
raises: every entry is grouped and then rendered. -/
def loadTransactionHistory (host : Host) (transactions : List JSVal) : Completion Unit :=
  if !host.historyContainer then .normal ()
  else if transactions.isEmpty then .normal ()
  else if transactions.any entryRaises then .abrupt "TypeError"
  else .normal ()

/-! ## The transfer workflow -/

/-- The function `addTransaction` (lines 182 to 203): build the record, put it in front
of the history, save, render the history. -/
def addTransaction (host : Host) (st : Ledger) (w : Storage) (amount : JSNum)
    (recipientName recipientAccount description : String) : Run Unit :=
  let transaction :=
    newTransaction host st.currentBalance amount recipientName recipientAccount description
  let st1 : Ledger := { st with transactions := transaction :: st.transactions }
  match saveData host st1 w with
  | (.abrupt e, w1) => { result := .abrupt e, ledger := st1, storage := w1 }
  | (.normal _, w1) =>
    match loadTransactionHistory host st1.transactions with
    | .normal _ => { result := .normal (), ledger := st1, storage := w1 }
    | .abrupt e => { result := .abrupt e, ledger := st1, storage := w1 }

/-- The function `processTransfer` (lines 264 to 373).  The view updates that follow the
call of `addTransaction` (lines 322 to 370) write numbers and strings and do not raise. -/
def processTransfer (host : Host) (page : Page) (st : Ledger) (w : Storage) : Run Bool :=
  match page.amountInput, page.recipientNameInput, page.recipientAccountInput,
    page.descriptionInput with
  | some amountValue, some recipientNameValue, some recipientAccountValue,
    some descriptionValue =>
    let amountStr := trim (removeCommas amountValue)
    let amount := parseFloatStr amountStr
    if amount.isNaN || amount.le (.fin 0) then
      { result := .normal false, ledger := st, storage := w }
    else
      let recipientName := trim recipientNameValue
      let recipientAccount := trim recipientAccountValue
      if !strTruthy recipientName then
        { result := .normal false, ledger := st, storage := w }
      else if !strTruthy recipientAccount then
        { result := .normal false, ledger := st, storage := w }
      else if amount.gt st.currentBalance then
        { result := .normal false, ledger := st, storage := w }
      else
        let remainingBalance := st.currentBalance.sub amount
        let st1 : Ledger := { st with currentBalance := remainingBalance }
        match addTransaction host st1 w amount (host.toUpperCase recipientName)
            recipientAccount (strOr (trim descriptionValue) "Transaction") with
        | { result := .normal _, ledger := st2, storage := w2 } =>
          { result := .normal true, ledger := st2, storage := w2 }
        | { result := .abrupt e, ledger := st2, storage := w2 } =>
          { result := .abrupt e, ledger := st2, storage := w2 }
  | _, _, _, _ => { result := .normal false, ledger := st, storage := w }

/-! ## Sequences of operations -/

/-- The page when all four form fields exist. -/
def Page.ofValues (amount recipientName recipientAccount description : String) : Page :=
  { amountInput := some amount, recipientNameInput := some recipientName,
    recipientAccountInput := some recipientAccount, descriptionInput := some description }

/-- The number `processTransfer` reads from the amount field. -/
def parsedAmount (amountValue : String) : JSNum :=
  parseFloatStr (trim (removeCommas amountValue))

/-- The globals together with the two backends. -/
structure System where
  ledger : Ledger
  storage : Storage

/-- The operations of the script that touch the ledger or the backends. -/
inductive Op
  | processTransfer (host : Host) (page : Page)
  | loadData
  | saveData (host : Host)

/-- Effect of one operation. -/
def Op.apply : Op → System → System
  | .processTransfer host page, s =>
    let r := KhanBank.processTransfer host page s.ledger s.storage
    { ledger := r.ledger, storage := r.storage }
  | .loadData, s => { ledger := (KhanBank.loadData s.ledger s.storage).2, storage := s.storage }
  | .saveData host, s =>
    { ledger := s.ledger, storage := (KhanBank.saveData host s.ledger s.storage).2 }

/-- Effect of a sequence of operations, first to last. -/
def runOps : List Op → System → System
  | [], s => s
  | op :: ops, s => runOps ops (op.apply s)

/-- Backend A works: `set` stores the text and answers truthy, `get` reads it back. -/
def Primary.Works (p : Primary) : Prop :=
  p.setFn = some (.replies true true) ∧ p.getFn = some .reads

/-- Backend A is absent, or raises an error value on every call. -/
def Primary.Down (p : Primary) : Prop :=
  (p.setFn = none ∧ p.getFn = none) ∨
    (p.setFn = some (.raises .error) ∧ p.getFn = some (.raises .error))

/-- Backend A gives `loadData` no truthy data, its handler not raising: backend A is
missing, raises an error value, holds nothing, holds the empty text, holds a text that
does not parse, or holds a text that parses to a falsy value. -/
def Primary.YieldsNothing (p : Primary) : Prop :=
  p.getFn = none ∨ p.getFn = some (.raises .error) ∨
    (p.getFn = some .reads ∧
      (p.cell = none ∨ p.cell = some .empty ∨ p.cell = some .malformed ∨
        ∃ v, p.cell = some (.json v) ∧ v.truthy = false))

/-- Backend B works: neither `setItem` nor `getItem` raises. -/
def Fallback.Works (f : Fallback) : Prop :=
  f.setItemRaises = none ∧ f.getItemRaises = none

/-- The balance is a finite number between zero and `top`. -/
def Ledger.Within (top : ℚ) (st : Ledger) : Prop :=
  ∃ b : ℚ, st.currentBalance = .fin b ∧ 0 ≤ b ∧ b ≤ top

/-- A cell holds nothing, or a snapshot of a ledger whose balance is finite and between
zero and `top`, as `saveData` writes it. -/
def CellSound (top : ℚ) (c : Option Text) : Prop :=
  c = none ∨ ∃ (b : ℚ) (ts : List JSVal) (iso : String),
    0 ≤ b ∧ b ≤ top ∧ c = some (JSON.stringify (snapshot (.fin b) ts iso))

/-- The balance is finite and between zero and `top`, and each backend cell holds
nothing or a snapshot with such a balance. -/
def System.Sound (top : ℚ) (s : System) : Prop :=
  s.ledger.Within top ∧ CellSound top s.storage.primary.cell ∧
    CellSound top s.storage.fallback.cell

/-- The history can be rendered: the document has no history container, or no entry
makes `loadTransactionHistory` raise. -/
def Renders (host : Host) (transactions : List JSVal) : Prop :=
  host.historyContainer = false ∨ transactions.any entryRaises = false

/-- The record `processTransfer` hands to the history for an accepted request: the
arguments of its call of `addTransaction` (lines 315 to 320), with the balance already
debited. -/
def transferRecord (host : Host) (st : Ledger)
    (amountValue nameValue accountValue descriptionValue : String) : JSVal :=
  newTransaction host (st.currentBalance.sub (parsedAmount amountValue))
    (parsedAmount amountValue) (host.toUpperCase (trim nameValue)) (trim accountValue)
    (strOr (trim descriptionValue) "Transaction")

/-- Whether coercing the `balance` field of a snapshot with `parseFloat` raises. -/
def balanceRaises (data : JSVal) : Bool :=
  match data.get "balance" with
  | some b => b.toStringRaises
  | none => false

/-! ## Sample environment -/

/-- Upper-casing of the ASCII letters, a `toUpperCase` for ASCII names. -/
def asciiUpper (s : String) : String := String.mk (s.data.map Char.toUpper)

/-- A sample host: 15 January 2024, 09:05 in Ulaanbaatar. -/
def sampleHost : Host :=
  { dateNow := 1705280700000
    mongoliaTime := { fullYear := 2024, month := 0, date := 15, hours := 9, minutes := 5 }
    isoString := "2024-01-15T01:05:00.000Z"
    toUpperCase := asciiUpper
    historyContainer := true }

/-- Backend A missing, backend B working and empty. -/
def freshStorage : Storage :=
  { primary := { setFn := none, getFn := none, cell := none }
    fallback := { setItemRaises := none, getItemRaises := none, cell := none } }

/-- Backend A raising on every call, backend B working and empty. -/
def raisingPrimaryStorage : Storage :=
  { primary := { setFn := some (.raises .error), getFn := some (.raises .error), cell := none }
    fallback := { setItemRaises := none, getItemRaises := none, cell := none } }

/-- The ledger after the first scenario: 1000.00 sent to John Doe from the seed state. -/
def sampleLedger : Ledger :=
  { currentBalance := .fin 399999000
    transactions :=
      [newTransaction sampleHost (.fin 399999000) (.fin 1000) "JOHN DOE" "ACC123" "Lunch"] }

/-- Backend A missing, backend B holding the given text. -/
def fallbackHolding (t : Text) : Storage :=
  { primary := { setFn := none, getFn := none, cell := none }
    fallback := { setItemRaises := none, getItemRaises := none, cell := some t } }

/-- A parsable snapshot whose `balance` is an object with an own `toString` property and
whose `transactions` is the empty array. -/
def shadowedBalanceSnapshot : JSVal :=
  .obj [("balance", .obj [("toString", .num (.fin 1))]), ("transactions", .arr [])]

/-- A parsable snapshot whose `balance` is the number -5. -/
def negativeBalanceSnapshot : JSVal :=
  .obj [("balance", .num (.fin (-5))), ("transactions", .arr [])]

/-- Backend A rejecting every call with `undefined`, backend B working and empty. -/
def rejectingPrimaryStorage : Storage :=
  { primary :=
      { setFn := some (.raises .nullish), getFn := some (.raises .nullish), cell := none }
    fallback := { setItemRaises := none, getItemRaises := none, cell := none } }

/-- A ledger whose history holds the single entry `null`, as `loadData` restores it from
a snapshot with `"transactions": [null]`. -/
def nullEntryLedger : Ledger := { currentBalance := .fin 100, transactions := [.null] }

/-- Backend A present and answering with the text `null`. -/
def primaryHoldingNull : Primary :=
  { setFn := some (.replies true true), getFn := some .reads, cell := some (.json .null) }

/-! ## The amount field -/

/-- A character kept by `replace(/[^0-9.]/g, "")`: a decimal digit or the point. -/
def isAmountChar (c : Char) : Bool := isDecimalDigit c || c == '.'

/-- The call `s.split(".")` on the characters of `s`: the pieces between the points. -/
def splitDot : List Char → List (List Char)
  | [] => [[]]
  | c :: cs =>
    if c = '.' then [] :: splitDot cs
    else
      match splitDot cs with
      | [] => [[c]]
      | p :: ps => (c :: p) :: ps

/-- The `input` listener of the amount field (lines 396 to 411): the value it writes back
into the field for the value it finds there. -/
def amountInputHandler (typed : String) : String :=
  let value := typed.data.filter isAmountChar
  -- Autoriser un seul point décimal
  let parts := splitDot value
  let value1 :=
    if parts.length > 2 then parts.headD [] ++ '.' :: (parts.drop 1).flatten
    else value
  -- Limiter à 2 décimales
  let value2 :=
    match parts[1]? with
    | some p1 =>
      if !p1.isEmpty && p1.length > 2 then parts.headD [] ++ '.' :: p1.take 2
      else value1
    | none => value1
  String.mk value2

/-- Number of characters after the first point of a value, zero when it has no point. -/
def decimalsOf (s : String) : Nat :=
  ((s.data.dropWhile (fun c => c != '.')).drop 1).length

/-! ## Basic facts -/

theorem strTruthy_iff (s : String) : strTruthy s = true ↔ s ≠ "" := by
  cases s with
  | mk data =>
    cases data with
    | nil => simp [strTruthy]
    | cons c cs =>
      simp [strTruthy]
      intro h
      have := congrArg String.data h
      simp at this

theorem parseFloat_num (n : JSNum) : parseFloat (.num n) = .normal n := by
  simp [parseFloat, JSVal.toStringRaises, JSVal.parseFloatOf]

/-! ## Rounding -/

theorem roundHalfEven_nonneg (y : ℚ) (h : 0 ≤ y) : 0 ≤ roundHalfEven y := by
  have hf : 0 ≤ ⌊y⌋ := Int.floor_nonneg.2 h
  unfold roundHalfEven
  split
  · exact hf
  · split
    · omega
    · split <;> omega

theorem roundHalfEven_le (y : ℚ) (J : ℤ) (h : y ≤ J) : roundHalfEven y ≤ J := by
  have hf : ⌊y⌋ ≤ J := Int.floor_le_iff.2 (by
    have : y < (J : ℚ) + 1 := by linarith
    exact_mod_cast this)
  unfold roundHalfEven
  split
  · exact hf
  · rename_i hlt
    have hne : ⌊y⌋ ≠ J := by
      intro heq
      apply hlt
      have h1 : (⌊y⌋ : ℚ) ≤ y := Int.floor_le y
      rw [heq] at h1 ⊢
      have : y = J := le_antisymm h h1
      rw [this]; norm_num
    have : ⌊y⌋ + 1 ≤ J := by omega
    split
    · exact this
    · split
      · exact hf
      · exact this

theorem roundHalfEven_intCast (J : ℤ) : roundHalfEven (J : ℚ) = J := by
  unfold roundHalfEven
  simp

theorem quantumExp_mono (x M : ℚ) (hx : 0 < x) (h : x ≤ M) : quantumExp x ≤ quantumExp M := by
  unfold quantumExp
  have hM : 0 < M := lt_of_lt_of_le hx h
  rw [abs_of_pos hx, abs_of_pos hM]
  have := Int.log_mono_right (b := 2) hx h
  omega

/-- A positive finite value of the Number type is a multiple of its spacing and lies below
`2 ^ 1024`. -/
theorem isDouble_inv (M : ℚ) (hMpos : 0 < M) (hM : IsDouble M) :
    M = (roundHalfEven (M / 2 ^ quantumExp M) : ℚ) * 2 ^ quantumExp M ∧
      M < (2 : ℚ) ^ (1024 : ℕ) := by
  unfold IsDouble JSNum.round at hM
  rw [if_neg (ne_of_gt hMpos)] at hM
  by_cases hbig : (2 : ℚ) ^ (1024 : ℕ) ≤
      |(roundHalfEven (M / 2 ^ quantumExp M) : ℚ) * 2 ^ quantumExp M|
  · rw [if_pos hbig, if_pos hMpos] at hM
    simp at hM
  · rw [if_neg hbig] at hM
    have heq : (roundHalfEven (M / 2 ^ quantumExp M) : ℚ) * 2 ^ quantumExp M = M := by
      injection hM
    rw [heq, abs_of_pos hMpos] at hbig
    exact ⟨heq.symm, lt_of_not_le hbig⟩

/-- Rounding a positive real that is at most a finite value `M` of the Number type gives
a finite value between zero and `M`. -/
theorem round_le_of_le (x M : ℚ) (hx : 0 < x) (h : x ≤ M) (hM : IsDouble M) :
    ∃ r : ℚ, JSNum.round x = .fin r ∧ 0 ≤ r ∧ r ≤ M := by
  have hMpos : 0 < M := lt_of_lt_of_le hx h
  have hk := quantumExp_mono x M hx h
  obtain ⟨hrep, hbig⟩ := isDouble_inv M hMpos hM
  generalize roundHalfEven (M / 2 ^ quantumExp M) = N at hrep
  have h2x : (0 : ℚ) < 2 ^ quantumExp x := zpow_pos (by norm_num) _
  obtain ⟨d, hd⟩ : ∃ d : ℕ, quantumExp M = quantumExp x + d :=
    ⟨(quantumExp M - quantumExp x).toNat, by omega⟩
  have h2 : (2 : ℚ) ^ quantumExp M = 2 ^ quantumExp x * 2 ^ d := by
    rw [hd, zpow_add₀ (by norm_num : (2 : ℚ) ≠ 0), zpow_natCast]
  have hMint : M / 2 ^ quantumExp x = ((N * 2 ^ d : ℤ) : ℚ) := by
    rw [div_eq_iff (ne_of_gt h2x), hrep, h2]
    push_cast
    ring
  have hle : x / 2 ^ quantumExp x ≤ ((N * 2 ^ d : ℤ) : ℚ) := by
    rw [← hMint]
    exact div_le_div_of_nonneg_right h (le_of_lt h2x)
  have hr1 := roundHalfEven_le _ _ hle
  have hr0 := roundHalfEven_nonneg (x / 2 ^ quantumExp x) (le_of_lt (div_pos hx h2x))
  have hrM : (roundHalfEven (x / 2 ^ quantumExp x) : ℚ) * 2 ^ quantumExp x ≤ M := by
    have : (roundHalfEven (x / 2 ^ quantumExp x) : ℚ) ≤ ((N * 2 ^ d : ℤ) : ℚ) := by
      exact_mod_cast hr1
    calc (roundHalfEven (x / 2 ^ quantumExp x) : ℚ) * 2 ^ quantumExp x
        ≤ ((N * 2 ^ d : ℤ) : ℚ) * 2 ^ quantumExp x :=
          mul_le_mul_of_nonneg_right this (le_of_lt h2x)
      _ = M := by rw [← hMint]; field_simp
  have hr0' : (0 : ℚ) ≤ (roundHalfEven (x / 2 ^ quantumExp x) : ℚ) * 2 ^ quantumExp x :=
    mul_nonneg (by exact_mod_cast hr0) (le_of_lt h2x)
  refine ⟨_, ?_, hr0', hrM⟩
  unfold JSNum.round
  rw [if_neg (ne_of_gt hx), if_neg]
  rw [abs_of_nonneg hr0']
  exact not_le_of_lt (lt_of_le_of_lt hrM hbig)

/-- A natural number below `2 ^ 53` is a value of the Number type. -/
theorem isDouble_of_nat (n : ℕ) (h : n < 2 ^ 53) : IsDouble (n : ℚ) := by
  unfold IsDouble
  by_cases h0 : n = 0
  · subst h0; simp [JSNum.round]
  have hpos : (0 : ℚ) < n := by exact_mod_cast Nat.pos_of_ne_zero h0
  have hlog : Int.log 2 (n : ℚ) < 53 := by
    rw [← Int.lt_zpow_iff_log_lt (by norm_num) hpos]
    norm_cast
  have hk : quantumExp (n : ℚ) ≤ 0 := by
    unfold quantumExp
    rw [abs_of_pos hpos]
    omega
  obtain ⟨d, hd⟩ : ∃ d : ℕ, quantumExp (n : ℚ) = -d := ⟨(-quantumExp (n : ℚ)).toNat, by omega⟩
  have hdiv : (n : ℚ) / 2 ^ quantumExp (n : ℚ) = ((n * 2 ^ d : ℤ) : ℚ) := by
    rw [hd, zpow_neg, zpow_natCast]
    push_cast
    field_simp
  have hr : (roundHalfEven ((n : ℚ) / 2 ^ quantumExp (n : ℚ)) : ℚ) * 2 ^ quantumExp (n : ℚ)
      = n := by
    rw [hdiv, roundHalfEven_intCast, hd, zpow_neg, zpow_natCast]
    push_cast
    field_simp
  unfold JSNum.round
  rw [if_neg (ne_of_gt hpos), hr, if_neg]
  rw [abs_of_pos hpos]
  have : (n : ℚ) < 2 ^ (53 : ℕ) := by exact_mod_cast h
  have h2 : (2 : ℚ) ^ (53 : ℕ) ≤ 2 ^ (1024 : ℕ) := by
    exact pow_le_pow_right₀ (by norm_num) (by norm_num)
  linarith

/-- Debiting a positive amount that is at most the balance, the balance being at most a
finite value `top` of the Number type, leaves a finite balance between zero and `top`. -/
theorem sub_within (b a top : ℚ) (ha : 0 < a) (hab : a ≤ b) (hb : b ≤ top)
    (htop : IsDouble top) :
    ∃ r : ℚ, (JSNum.fin b).sub (.fin a) = .fin r ∧ 0 ≤ r ∧ r ≤ top := by
  simp only [JSNum.sub]
  by_cases h0 : b - a = 0
  · rw [h0]
    exact ⟨0, by simp [JSNum.round], le_refl _, by linarith⟩
  · have hx : 0 < b - a := lt_of_le_of_ne (by linarith) (Ne.symm h0)
    exact round_le_of_le (b - a) top hx (by linarith) htop

/-- A real closer than one half to the integer `N` rounds to `N`. -/
theorem roundHalfEven_of_near (y : ℚ) (N : ℤ) (h : |y - N| < 1 / 2) : roundHalfEven y = N := by
  have h1 := (abs_lt.1 h).1
  have h2 := (abs_lt.1 h).2
  by_cases hc : (N : ℚ) ≤ y
  · have hf : ⌊y⌋ = N := Int.floor_eq_iff.2 ⟨hc, by linarith⟩
    unfold roundHalfEven
    rw [hf, if_pos (by linarith)]
  · have hf : ⌊y⌋ = N - 1 :=
      Int.floor_eq_iff.2 ⟨by push_cast; linarith, by push_cast; linarith⟩
    unfold roundHalfEven
    rw [hf]
    push_cast
    rw [if_neg (by linarith), if_pos (by linarith)]
    omega

/-- Rounding in the normal range: a real `x` with `2 ^ e ≤ x < 2 ^ (e + 1)` that is closer
than half a spacing to `N * 2 ^ (e - 52)` rounds to it. -/
theorem round_of_nearest (x : ℚ) (e N : ℤ) (hx : 0 < x) (hlo : (2 : ℚ) ^ e ≤ x)
    (hhi : x < (2 : ℚ) ^ (e + 1)) (he : -1022 ≤ e)
    (hnear : |x / 2 ^ (e - 52) - N| < 1 / 2) (hN : 0 ≤ N)
    (hfin : (N : ℚ) * 2 ^ (e - 52) < 2 ^ (1024 : ℕ)) :
    JSNum.round x = .fin ((N : ℚ) * 2 ^ (e - 52)) := by
  have hlog : Int.log 2 x = e := by
    have h1 : e ≤ Int.log 2 x :=
      (Int.zpow_le_iff_le_log (by norm_num) hx).1 (by exact_mod_cast hlo)
    have h2 : Int.log 2 x < e + 1 :=
      (Int.lt_zpow_iff_log_lt (by norm_num) hx).1 (by exact_mod_cast hhi)
    omega
  have hq : quantumExp x = e - 52 := by
    unfold quantumExp
    rw [abs_of_pos hx, hlog]
    omega
  unfold JSNum.round
  rw [if_neg (ne_of_gt hx), hq, roundHalfEven_of_near _ N hnear, if_neg]
  rw [abs_of_nonneg (mul_nonneg (by exact_mod_cast hN) (le_of_lt (zpow_pos (by norm_num) _)))]
  exact not_le_of_lt hfin

/-- Underflow: a positive real below half the smallest positive value of the Number type
rounds to zero. -/
theorem round_of_tiny (x : ℚ) (hx : 0 < x) (h : x < (2 : ℚ) ^ (-1075 : ℤ)) :
    JSNum.round x = .fin 0 := by
  have hlog : Int.log 2 x < -1022 := by
    apply (Int.lt_zpow_iff_log_lt (by norm_num) hx).1
    have : (2 : ℚ) ^ (-1075 : ℤ) ≤ 2 ^ (-1022 : ℤ) :=
      zpow_le_zpow_right₀ (by norm_num) (by norm_num)
    exact_mod_cast lt_of_lt_of_le h this
  have hq : quantumExp x = -1074 := by
    unfold quantumExp
    rw [abs_of_pos hx]
    omega
  have h2 : (0 : ℚ) < 2 ^ (-1074 : ℤ) := zpow_pos (by norm_num) _
  have hy : |x / 2 ^ (-1074 : ℤ) - ((0 : ℤ) : ℚ)| < 1 / 2 := by
    have hpos : 0 < x / 2 ^ (-1074 : ℤ) := div_pos hx h2
    rw [Int.cast_zero, sub_zero, abs_of_pos hpos, div_lt_iff₀ h2]
    have : (1 : ℚ) / 2 * 2 ^ (-1074 : ℤ) = 2 ^ (-1075 : ℤ) := by
      rw [show (-1074 : ℤ) = -1075 + 1 by norm_num, zpow_add₀ (by norm_num : (2 : ℚ) ≠ 0),
        zpow_one]
      ring
    rw [this]
    exact h
  unfold JSNum.round
  rw [if_neg (ne_of_gt hx), hq, roundHalfEven_of_near _ 0 hy]
  simp

/-! ## Facts about the workflow -/

/-- The function `saveData` always completes normally. -/
theorem saveData_normal (host : Host) (st : Ledger) (w : Storage) :
    ∃ ok, (saveData host st w).1 = .normal ok := by
  unfold saveData
  rw [parseFloat_num]
  dsimp only
  split
  · exact ⟨_, rfl⟩
  · split
    · exact ⟨_, rfl⟩
    · split <;> exact ⟨_, rfl⟩

/-- The date string of a record is not a name inherited from `Object.prototype`: it
holds a point. -/
theorem date_not_protoNamed (t : MongoliaTime) :
    objectPrototypeKeys.contains (formatMongoliaDateTime t).date = false := by
  have hpoint : '.' ∈ (formatMongoliaDateTime t).date.data := by
    simp [formatMongoliaDateTime]
  have hkeys : ∀ k ∈ objectPrototypeKeys, '.' ∉ k.data := by decide
  cases h : objectPrototypeKeys.contains (formatMongoliaDateTime t).date with
  | false => rfl
  | true =>
    have hmem : (formatMongoliaDateTime t).date ∈ objectPrototypeKeys := by
      simpa using h
    exact absurd hpoint (hkeys _ hmem)

/-- The record built by `addTransaction` never makes the history view raise. -/
theorem entryRaises_newTransaction (host : Host) (currentBalance amount : JSNum)
    (recipientName recipientAccount description : String) :
    entryRaises (newTransaction host currentBalance amount recipientName recipientAccount
      description) = false := by
  have hd := date_not_protoNamed host.mongoliaTime
  have hdate : (newTransaction host currentBalance amount recipientName recipientAccount
      description).get "date" = some (.str (formatMongoliaDateTime host.mongoliaTime).date) :=
    rfl
  have htime : (newTransaction host currentBalance amount recipientName recipientAccount
      description).get "time" = some (.str (formatMongoliaDateTime host.mongoliaTime).time) :=
    rfl
  have hdesc : (newTransaction host currentBalance amount recipientName recipientAccount
      description).get "description" = some (.str (strOr description "No description")) :=
    rfl
  have hrem : (newTransaction host currentBalance amount recipientName recipientAccount
      description).get "remainingBalance" = some (.num currentBalance) := rfl
  have hamt : (newTransaction host currentBalance amount recipientName recipientAccount
      description).get "amount" = some (.num amount) := rfl
  have hd2 : (formatMongoliaDateTime host.mongoliaTime).date ∉ objectPrototypeKeys := by
    simpa using hd
  unfold entryRaises
  rw [hdate, htime, hdesc, hrem, hamt]
  simp [newTransaction, dateKeyRaises, templateRaises, formatCurrencyRaises,
    JSVal.toStringRaises, JSVal.protoNamed, JSVal.localeRaises, hd2]

/-- A history that can be rendered can still be rendered with a new record in front. -/
theorem loadTransactionHistory_cons (host : Host) (ts : List JSVal)
    (currentBalance amount : JSNum) (recipientName recipientAccount description : String)
    (h : Renders host ts) :
    loadTransactionHistory host
      (newTransaction host currentBalance amount recipientName recipientAccount description
        :: ts) = .normal () := by
  unfold loadTransactionHistory
  rcases h with h | h
  · simp [h]
  · simp only [List.any_cons, entryRaises_newTransaction, h]
    simp

/-- The ledger, the backends and the result of a call whose request passes the checks:
the debit and the record are made, the snapshot is saved, and the result is true unless
rendering the history raises. -/
theorem processTransfer_accept (host : Host) (st : Ledger) (w : Storage)
    (amountValue nameValue accountValue descriptionValue : String)
    (h1 : (parsedAmount amountValue).isNaN = false)
    (h2 : (parsedAmount amountValue).le (.fin 0) = false)
    (h3 : trim nameValue ≠ "") (h4 : trim accountValue ≠ "")
    (h5 : (parsedAmount amountValue).gt st.currentBalance = false) :
    (processTransfer host (Page.ofValues amountValue nameValue accountValue descriptionValue)
        st w).ledger =
      { currentBalance := st.currentBalance.sub (parsedAmount amountValue)
        transactions :=
          newTransaction host (st.currentBalance.sub (parsedAmount amountValue))
            (parsedAmount amountValue) (host.toUpperCase (trim nameValue)) (trim accountValue)
            (strOr (trim descriptionValue) "Transaction") :: st.transactions } ∧
    (processTransfer host (Page.ofValues amountValue nameValue accountValue descriptionValue)
        st w).storage =
      (saveData host
        { currentBalance := st.currentBalance.sub (parsedAmount amountValue)
          transactions :=
            newTransaction host (st.currentBalance.sub (parsedAmount amountValue))
              (parsedAmount amountValue) (host.toUpperCase (trim nameValue))
              (trim accountValue) (strOr (trim descriptionValue) "Transaction")
              :: st.transactions } w).2 ∧
    (processTransfer host (Page.ofValues amountValue nameValue accountValue descriptionValue)
        st w).result =
      (match loadTransactionHistory host
          (newTransaction host (st.currentBalance.sub (parsedAmount amountValue))
            (parsedAmount amountValue) (host.toUpperCase (trim nameValue)) (trim accountValue)
            (strOr (trim descriptionValue) "Transaction") :: st.transactions) with
        | .normal _ => .normal true
        | .abrupt e => .abrupt e) := by
  have h3' := (strTruthy_iff _).2 h3
  have h4' := (strTruthy_iff _).2 h4
  unfold parsedAmount at h1 h2 h5
  obtain ⟨ok, hok⟩ := saveData_normal host
    { currentBalance := st.currentBalance.sub (parsedAmount amountValue)
      transactions :=
          newTransaction host (st.currentBalance.sub (parsedAmount amountValue))
            (parsedAmount amountValue) (host.toUpperCase (trim nameValue)) (trim accountValue)
            (strOr (trim descriptionValue) "Transaction") :: st.transactions } w
  unfold parsedAmount at hok
  simp only [processTransfer, Page.ofValues, addTransaction, h1, h2, h3', h4', h5, parsedAmount]
  simp only [Bool.or_self, Bool.false_eq_true, if_false, Bool.not_true]
  generalize hs : saveData host _ w = r at hok ⊢
  obtain ⟨c, w1⟩ := r
  simp only at hok
  subst hok
  simp only
  generalize loadTransactionHistory host _ = v
  cases v <;> exact ⟨rfl, rfl, rfl⟩

/-- A call of `processTransfer` either rejects and changes nothing, or its request passes
the checks. -/
theorem processTransfer_cases (host : Host) (st : Ledger) (w : Storage)
    (amountValue nameValue accountValue descriptionValue : String) :
    ((processTransfer host (Page.ofValues amountValue nameValue accountValue descriptionValue)
        st w).result = .normal false ∧
      (processTransfer host (Page.ofValues amountValue nameValue accountValue descriptionValue)
        st w).ledger = st ∧
      (processTransfer host (Page.ofValues amountValue nameValue accountValue descriptionValue)
        st w).storage = w) ∨
    ((parsedAmount amountValue).isNaN = false ∧
      (parsedAmount amountValue).le (.fin 0) = false ∧
      trim nameValue ≠ "" ∧ trim accountValue ≠ "" ∧
      (parsedAmount amountValue).gt st.currentBalance = false) := by
  by_cases h1 : (parsedAmount amountValue).isNaN = true
  · left; unfold parsedAmount at h1; simp [processTransfer, Page.ofValues, h1]
  by_cases h2 : (parsedAmount amountValue).le (.fin 0) = true
  · left; unfold parsedAmount at h2; simp [processTransfer, Page.ofValues, h2]
  by_cases h3 : strTruthy (trim nameValue) = true
  swap
  · left
    simp only [Bool.not_eq_true] at h1 h2 h3
    unfold parsedAmount at h1 h2
    simp [processTransfer, Page.ofValues, h1, h2, h3]
  by_cases h4 : strTruthy (trim accountValue) = true
  swap
  · left
    simp only [Bool.not_eq_true] at h1 h2 h4
    unfold parsedAmount at h1 h2
    simp [processTransfer, Page.ofValues, h1, h2, h3, h4]
  by_cases h5 : (parsedAmount amountValue).gt st.currentBalance = true
  · left
    simp only [Bool.not_eq_true] at h1 h2
    unfold parsedAmount at h1 h2 h5
    simp [processTransfer, Page.ofValues, h1, h2, h3, h4, h5]
  · right
    simp only [Bool.not_eq_true] at h1 h2 h5
    exact ⟨h1, h2, (strTruthy_iff _).1 h3, (strTruthy_iff _).1 h4, h5⟩

/-- The same for a page that may lack some of its fields. -/
theorem processTransfer_inv (host : Host) (page : Page) (st : Ledger) (w : Storage) :
    ((processTransfer host page st w).result = .normal false ∧
      (processTransfer host page st w).ledger = st ∧
      (processTransfer host page st w).storage = w) ∨
    (∃ amountValue nameValue accountValue descriptionValue,
      page = Page.ofValues amountValue nameValue accountValue descriptionValue ∧
      (parsedAmount amountValue).isNaN = false ∧
      (parsedAmount amountValue).le (.fin 0) = false ∧
      trim nameValue ≠ "" ∧ trim accountValue ≠ "" ∧
      (parsedAmount amountValue).gt st.currentBalance = false) := by
  obtain ⟨a, n, c, d⟩ := page
  cases a with
  | none => left; simp [processTransfer]
  | some av =>
    cases n with
    | none => left; simp [processTransfer]
    | some nv =>
      cases c with
      | none => left; simp [processTransfer]
      | some cv =>
        cases d with
        | none => left; simp [processTransfer]
        | some dv =>
          rcases processTransfer_cases host st w av nv cv dv with h | h
          · left; exact h
          · right; exact ⟨av, nv, cv, dv, rfl, h⟩

/-- An amount that passes the checks against a finite balance is finite, positive and at
most the balance. -/
theorem amount_of_checks (amount : JSNum) (b : ℚ)
    (h1 : amount.isNaN = false) (h2 : amount.le (.fin 0) = false)
    (h5 : amount.gt (.fin b) = false) :
    ∃ a : ℚ, amount = .fin a ∧ 0 < a ∧ a ≤ b := by
  cases amount with
  | nan => simp [JSNum.isNaN] at h1
  | negInf => simp [JSNum.le] at h2
  | posInf => simp [JSNum.gt, JSNum.lt] at h5
  | fin a =>
    refine ⟨a, rfl, ?_, ?_⟩
    · simpa [JSNum.le] using h2
    · simpa [JSNum.gt, JSNum.lt] using h5

/-- The checks pass for a finite amount that is positive and at most the balance. -/
theorem checks_of_amount (a b : ℚ) (ha : 0 < a) (hab : a ≤ b) :
    (JSNum.fin a).isNaN = false ∧ (JSNum.fin a).le (.fin 0) = false ∧
      (JSNum.fin a).gt (.fin b) = false := by
  refine ⟨rfl, ?_, ?_⟩
  · simpa [JSNum.le] using ha
  · simpa [JSNum.gt, JSNum.lt] using hab

/-- A call of `processTransfer` keeps the balance finite and between zero and `top`,
whether it accepts, rejects or raises. -/
theorem processTransfer_within (host : Host) (page : Page) (st : Ledger) (w : Storage)
    (top : ℚ) (htop : IsDouble top) (h : st.Within top) :
    (processTransfer host page st w).ledger.Within top := by
  rcases processTransfer_inv host page st w with hr | ⟨av, nv, cv, dv, hp, h1, h2, h3, h4, h5⟩
  · rw [hr.2.1]; exact h
  · obtain ⟨b, hb, hb0, hbt⟩ := h
    subst hp
    rw [hb] at h5
    obtain ⟨a, haeq, ha, hab⟩ := amount_of_checks _ b h1 h2 h5
    rw [← hb] at h5
    rw [(processTransfer_accept host st w av nv cv dv h1 h2 h3 h4 h5).1]
    obtain ⟨r, hr, hr0, hrt⟩ := sub_within b a top ha hab hbt htop
    refine ⟨r, ?_, hr0, hrt⟩
    simp only [hb, haeq]
    exact hr

/-- A call that returns true against a finite balance has debited a finite positive
amount that is at most the balance. -/
theorem processTransfer_true_debits (host : Host) (page : Page) (st : Ledger) (w : Storage)
    (b : ℚ) (hb : st.currentBalance = .fin b)
    (h : (processTransfer host page st w).result = .normal true) :
    ∃ (amountValue : String) (a : ℚ), page.amountInput = some amountValue ∧
      parsedAmount amountValue = .fin a ∧ 0 < a ∧ a ≤ b ∧
      (processTransfer host page st w).ledger.currentBalance = (JSNum.fin b).sub (.fin a) := by
  rcases processTransfer_inv host page st w with hr | ⟨av, nv, cv, dv, hp, h1, h2, h3, h4, h5⟩
  · rw [hr.1] at h; simp at h
  · subst hp
    have h5' := h5
    rw [hb] at h5'
    obtain ⟨a, haeq, ha, hab⟩ := amount_of_checks _ b h1 h2 h5'
    refine ⟨av, a, rfl, haeq, ha, hab, ?_⟩
    rw [(processTransfer_accept host st w av nv cv dv h1 h2 h3 h4 h5).1]
    simp only [hb, haeq]

/-- A sequence of `processTransfer` calls keeps the balance finite and between zero and
`top`. -/
theorem runTransfers_within (calls : List (Host × Page)) (s : System) (top : ℚ)
    (htop : IsDouble top) (h : s.ledger.Within top) :
    (runOps (calls.map (fun c => Op.processTransfer c.1 c.2)) s).ledger.Within top := by
  induction calls generalizing s with
  | nil => exact h
  | cons c cs ih =>
    simp only [List.map, runOps]
    apply ih
    exact processTransfer_within c.1 c.2 s.ledger s.storage top htop h

/-- The result of a call whose request passes the checks, when the history can be
rendered. -/
theorem processTransfer_accept_true (host : Host) (st : Ledger) (w : Storage)
    (amountValue nameValue accountValue descriptionValue : String)
    (h1 : (parsedAmount amountValue).isNaN = false)
    (h2 : (parsedAmount amountValue).le (.fin 0) = false)
    (h3 : trim nameValue ≠ "") (h4 : trim accountValue ≠ "")
    (h5 : (parsedAmount amountValue).gt st.currentBalance = false)
    (hview : Renders host st.transactions) :
    (processTransfer host (Page.ofValues amountValue nameValue accountValue descriptionValue)
        st w).result = .normal true := by
  rw [(processTransfer_accept host st w amountValue nameValue accountValue descriptionValue
    h1 h2 h3 h4 h5).2.2, loadTransactionHistory_cons host st.transactions _ _ _ _ _ hview]

/-! ## Sample evaluations -/

/-- Rounding leaves a natural number below `2 ^ 53` as it is. -/
theorem round_nat (n : ℕ) (h : n < 2 ^ 53) : JSNum.round (n : ℚ) = .fin (n : ℚ) :=
  isDouble_of_nat n h

theorem parsedAmount_10 : parsedAmount "10" = .fin 10 := by
  have h : scanLiteral ((trim (removeCommas "10")).data.dropWhile isStrWhiteSpaceChar)
      = some (.decimal false 10 0) := by decide
  have hv : scale10 10 0 = ((10 : ℕ) : ℚ) := by norm_num [scale10, Int.toNat]
  simp only [parsedAmount, parseFloatStr, h, StrDecimalLiteral.value, hv]
  simpa using round_nat 10 (by norm_num)

theorem parsedAmount_1000 : parsedAmount "1000.00" = .fin 1000 := by
  have h : scanLiteral ((trim (removeCommas "1000.00")).data.dropWhile isStrWhiteSpaceChar)
      = some (.decimal false 100000 (-2)) := by decide
  have hv : scale10 100000 (-2) = ((1000 : ℕ) : ℚ) := by norm_num [scale10, Int.toNat]
  simp only [parsedAmount, parseFloatStr, h, StrDecimalLiteral.value, hv]
  simpa using round_nat 1000 (by norm_num)

theorem parsedAmount_500000000 : parsedAmount "500,000,000.00" = .fin 500000000 := by
  have h : scanLiteral
      ((trim (removeCommas "500,000,000.00")).data.dropWhile isStrWhiteSpaceChar)
      = some (.decimal false 50000000000 (-2)) := by decide
  have hv : scale10 50000000000 (-2) = ((500000000 : ℕ) : ℚ) := by
    norm_num [scale10, Int.toNat]
  simp only [parsedAmount, parseFloatStr, h, StrDecimalLiteral.value, hv]
  simpa using round_nat 500000000 (by norm_num)

theorem parsedAmount_399999000 : parsedAmount "399999000.00" = .fin 399999000 := by
  have h : scanLiteral
      ((trim (removeCommas "399999000.00")).data.dropWhile isStrWhiteSpaceChar)
      = some (.decimal false 39999900000 (-2)) := by decide
  have hv : scale10 39999900000 (-2) = ((399999000 : ℕ) : ℚ) := by
    norm_num [scale10, Int.toNat]
  simp only [parsedAmount, parseFloatStr, h, StrDecimalLiteral.value, hv]
  simpa using round_nat 399999000 (by norm_num)

/-- The literal `0.00000001` reads as the double nearest to it. -/
theorem parsedAmount_small : parsedAmount "0.00000001" =
    .fin (6044629098073146 * 2 ^ (-79 : ℤ)) := by
  have h : scanLiteral ((trim (removeCommas "0.00000001")).data.dropWhile isStrWhiteSpaceChar)
      = some (.decimal false 1 (-8)) := by decide
  have hv : scale10 1 (-8) = 1 / 100000000 := by norm_num [scale10, Int.toNat]
  simp only [parsedAmount, parseFloatStr, h, StrDecimalLiteral.value, hv]
  have := round_of_nearest (1 / 100000000) (-27) 6044629098073146 (by norm_num)
    (by norm_num) (by norm_num) (by norm_num) (by rw [abs_lt]; constructor <;> norm_num)
    (by norm_num) (by norm_num)
  rw [this]
  norm_num

/-- The literal `1e-400` underflows to zero. -/
theorem parsedAmount_tiny : parsedAmount "1e-400" = .fin 0 := by
  have h : scanLiteral ((trim (removeCommas "1e-400")).data.dropWhile isStrWhiteSpaceChar)
      = some (.decimal false 1 (-400)) := by decide
  have hv : scale10 1 (-400) = 1 / 10 ^ 400 := by
    have he : (-(-400 : ℤ)).toNat = 400 := by decide
    rw [scale10, if_neg (by decide), he, Nat.cast_one]
  simp only [parsedAmount, parseFloatStr, h, StrDecimalLiteral.value, hv]
  exact round_of_tiny _ (by norm_num) (by norm_num)

/-- The literal `400000000.00000001` reads as 400000000, the nearest double. -/
theorem parsedAmount_just_above : parsedAmount "400000000.00000001" = .fin 400000000 := by
  have h : scanLiteral
      ((trim (removeCommas "400000000.00000001")).data.dropWhile isStrWhiteSpaceChar)
      = some (.decimal false 40000000000000001 (-8)) := by decide
  have hv : scale10 40000000000000001 (-8) = 40000000000000001 / 100000000 := by
    norm_num [scale10, Int.toNat]
  simp only [parsedAmount, parseFloatStr, h, StrDecimalLiteral.value, hv]
  have := round_of_nearest (40000000000000001 / 100000000) 28 6710886400000000
    (by norm_num) (by norm_num) (by norm_num) (by norm_num)
    (by rw [abs_lt]; constructor <;> norm_num) (by norm_num) (by norm_num)
  rw [this]
  norm_num

theorem isDouble_399999000 : IsDouble 399999000 := by
  simpa using isDouble_of_nat 399999000 (by norm_num)

theorem isDouble_400000000 : IsDouble 400000000 := by
  simpa using isDouble_of_nat 400000000 (by norm_num)

/-- The first scenario of the specification is accepted. -/
theorem scenario1_accepted (w : Storage) (description : String) :
    (processTransfer sampleHost (Page.ofValues "1000.00" "John Doe" "ACC123" description)
      Ledger.initial w).result = .normal true ∧
    (processTransfer sampleHost (Page.ofValues "1000.00" "John Doe" "ACC123" description)
      Ledger.initial w).ledger =
      { currentBalance := .fin 399999000
        transactions :=
          [newTransaction sampleHost (.fin 399999000) (.fin 1000) "JOHN DOE" "ACC123"
            (strOr (trim description) "Transaction")] } := by
  have hc := checks_of_amount 1000 400000000 (by norm_num) (by norm_num)
  have h1 : (parsedAmount "1000.00").isNaN = false := by rw [parsedAmount_1000]; exact hc.1
  have h2 : (parsedAmount "1000.00").le (.fin 0) = false := by
    rw [parsedAmount_1000]; exact hc.2.1
  have h5 : (parsedAmount "1000.00").gt Ledger.initial.currentBalance = false := by
    rw [parsedAmount_1000]; exact hc.2.2
  have h := processTransfer_accept sampleHost Ledger.initial w "1000.00" "John Doe" "ACC123"
    description h1 h2 (by decide) (by decide) h5
  have ht := processTransfer_accept_true sampleHost Ledger.initial w "1000.00" "John Doe"
    "ACC123" description h1 h2 (by decide) (by decide) h5 (Or.inr rfl)
  refine ⟨ht, ?_⟩
  rw [h.1, parsedAmount_1000]
  have e1 : sampleHost.toUpperCase (trim "John Doe") = "JOHN DOE" := by decide
  have e2 : trim "ACC123" = "ACC123" := by decide
  have e3 : (Ledger.initial.currentBalance.sub (.fin 1000)) = .fin 399999000 := by
    have hsub : (400000000 : ℚ) - 1000 = ((399999000 : ℕ) : ℚ) := by norm_num
    simp only [Ledger.initial, JSNum.sub, hsub]
    simpa using round_nat 399999000 (by norm_num)
  rw [e1, e2, e3]
  rfl

/-- Rounding in the debit: from the seed balance the amount `0.00000001` is accepted and
the balance stays 400000000, the double nearest to the exact difference. -/
theorem processTransfer_rounds_small_amount (w : Storage) :
    (processTransfer sampleHost (Page.ofValues "0.00000001" "John Doe" "ACC123" "")
      Ledger.initial w).result = .normal true ∧
    (processTransfer sampleHost (Page.ofValues "0.00000001" "John Doe" "ACC123" "")
      Ledger.initial w).ledger.currentBalance = .fin 400000000 := by
  have hc := checks_of_amount (6044629098073146 * 2 ^ (-79 : ℤ)) 400000000
    (by norm_num) (by norm_num)
  have h1 : (parsedAmount "0.00000001").isNaN = false := by
    rw [parsedAmount_small]; exact hc.1
  have h2 : (parsedAmount "0.00000001").le (.fin 0) = false := by
    rw [parsedAmount_small]; exact hc.2.1
  have h5 : (parsedAmount "0.00000001").gt Ledger.initial.currentBalance = false := by
    rw [parsedAmount_small]; exact hc.2.2
  have h := processTransfer_accept sampleHost Ledger.initial w "0.00000001" "John Doe"
    "ACC123" "" h1 h2 (by decide) (by decide) h5
  have ht := processTransfer_accept_true sampleHost Ledger.initial w "0.00000001" "John Doe"
    "ACC123" "" h1 h2 (by decide) (by decide) h5 (Or.inr rfl)
  refine ⟨ht, ?_⟩
  rw [h.1, parsedAmount_small]
  simp only [Ledger.initial, JSNum.sub]
  have := round_of_nearest (400000000 - 6044629098073146 * 2 ^ (-79 : ℤ)) 28
    6710886400000000 (by norm_num) (by norm_num) (by norm_num) (by norm_num)
    (by rw [abs_lt]; constructor <;> norm_num) (by norm_num) (by norm_num)
  rw [this]
  norm_num

/-- Rounding in the reading of the amount: from the seed balance the amount
`400000000.00000001` reads as 400000000, is accepted and empties the balance. -/
theorem processTransfer_accepts_rounded_amount (w : Storage) :
    (processTransfer sampleHost (Page.ofValues "400000000.00000001" "John Doe" "ACC123" "")
      Ledger.initial w).result = .normal true ∧
    (processTransfer sampleHost (Page.ofValues "400000000.00000001" "John Doe" "ACC123" "")
      Ledger.initial w).ledger.currentBalance = .fin 0 := by
  have hc := checks_of_amount 400000000 400000000 (by norm_num) (by norm_num)
  have h1 : (parsedAmount "400000000.00000001").isNaN = false := by
    rw [parsedAmount_just_above]; exact hc.1
  have h2 : (parsedAmount "400000000.00000001").le (.fin 0) = false := by
    rw [parsedAmount_just_above]; exact hc.2.1
  have h5 : (parsedAmount "400000000.00000001").gt Ledger.initial.currentBalance = false := by
    rw [parsedAmount_just_above]; exact hc.2.2
  have h := processTransfer_accept sampleHost Ledger.initial w "400000000.00000001"
    "John Doe" "ACC123" "" h1 h2 (by decide) (by decide) h5
  have ht := processTransfer_accept_true sampleHost Ledger.initial w "400000000.00000001"
    "John Doe" "ACC123" "" h1 h2 (by decide) (by decide) h5 (Or.inr rfl)
  refine ⟨ht, ?_⟩
  rw [h.1, parsedAmount_just_above]
  simp [Ledger.initial, JSNum.sub, JSNum.round]

/-! ## The transfer workflow -/

/-- Counterexample to C1: the ledger has balance 100 and a history holding the entry
`null`; the request (amount 10, name and account filled in) is valid.  The balance is
debited to 90 and the snapshot saved, but `loadTransactionHistory` raises on
`transaction.date`, so `processTransfer` raises instead of returning true. -/
theorem processTransfer_raises_on_null_entry :
    nullEntryLedger.currentBalance = .fin 100 ∧ (0 : ℚ) ≤ 100 ∧
    parsedAmount "10" = .fin 10 ∧ (0 : ℚ) < 10 ∧ (10 : ℚ) ≤ 100 ∧
    trim "Jane" ≠ "" ∧ trim "ACC999" ≠ "" ∧
    (processTransfer sampleHost (Page.ofValues "10" "Jane" "ACC999" "") nullEntryLedger
      freshStorage).result = .abrupt "TypeError" ∧
    (processTransfer sampleHost (Page.ofValues "10" "Jane" "ACC999" "") nullEntryLedger
      freshStorage).result ≠ .normal true ∧
    (processTransfer sampleHost (Page.ofValues "10" "Jane" "ACC999" "") nullEntryLedger
      freshStorage).ledger.currentBalance = .fin 90 := by
  have hc := checks_of_amount 10 100 (by norm_num) (by norm_num)
  have h := processTransfer_accept sampleHost nullEntryLedger freshStorage "10" "Jane"
    "ACC999" "" (by rw [parsedAmount_10]; exact hc.1) (by rw [parsedAmount_10]; exact hc.2.1)
    (by decide) (by decide) (by rw [parsedAmount_10]; exact hc.2.2)
  have hres : (processTransfer sampleHost (Page.ofValues "10" "Jane" "ACC999" "")
      nullEntryLedger freshStorage).result = .abrupt "TypeError" := by
    rw [h.2.2]
    simp [loadTransactionHistory, sampleHost, nullEntryLedger, entryRaises]
  refine ⟨rfl, by norm_num, parsedAmount_10, by norm_num, by norm_num, by decide, by decide,
    hres, ?_, ?_⟩
  · rw [hres]; simp
  · rw [h.1, parsedAmount_10]
    have hsub : (100 : ℚ) - 10 = ((90 : ℕ) : ℚ) := by norm_num
    simp only [nullEntryLedger, JSNum.sub, hsub]
    simpa using round_nat 90 (by norm_num)

/-- C1, amended: take a ledger whose balance `b` is a number with `0 ≤ b` and whose
history can be rendered, and a transfer whose amount field parses to a number `a` with
`0 < a ≤ b` (the boundary `a = b` included) and whose recipient name and account are not
empty after trimming.  Then `processTransfer` returns true and leaves as balance the
JavaScript difference `b - a`, that is the double nearest to the exact difference: a finite
number between 0 and `b`, equal to the exact difference whenever that is a double.  Hence
along every sequence of `processTransfer` calls from that ledger the balance stays a
finite number between 0 and `b`, and each call that returns true has debited its amount:
the balance after it is the JavaScript difference of the balance before it and the
amount, again not negative. -/
theorem processTransfer_debits_exactly (host : Host) (w : Storage) (ts : List JSVal)
    (b a : ℚ) (amountValue nameValue accountValue descriptionValue : String)
    (hdouble : IsDouble b) (hb : 0 ≤ b) (hparse : parsedAmount amountValue = .fin a)
    (ha : 0 < a) (hab : a ≤ b)
    (hname : trim nameValue ≠ "") (haccount : trim accountValue ≠ "")
    (hview : Renders host ts) :
    ((processTransfer host (Page.ofValues amountValue nameValue accountValue descriptionValue)
        { currentBalance := .fin b, transactions := ts } w).result = .normal true ∧
      (processTransfer host (Page.ofValues amountValue nameValue accountValue descriptionValue)
        { currentBalance := .fin b, transactions := ts } w).ledger.currentBalance
        = (JSNum.fin b).sub (.fin a) ∧
      (∃ r : ℚ, (JSNum.fin b).sub (.fin a) = .fin r ∧ 0 ≤ r ∧ r ≤ b) ∧
      (IsDouble (b - a) → (JSNum.fin b).sub (.fin a) = .fin (b - a))) ∧
    ∀ (calls : List (Host × Page)) (s : System),
      s = runOps (calls.map (fun c => Op.processTransfer c.1 c.2))
        { ledger := { currentBalance := .fin b, transactions := ts }, storage := w } →
      ∃ before : ℚ, s.ledger.currentBalance = .fin before ∧ 0 ≤ before ∧ before ≤ b ∧
        ∀ (host2 : Host) (page : Page),
          (processTransfer host2 page s.ledger s.storage).result = .normal true →
          ∃ (amountValue2 : String) (a2 r : ℚ), page.amountInput = some amountValue2 ∧
            parsedAmount amountValue2 = .fin a2 ∧ 0 < a2 ∧ a2 ≤ before ∧
            (processTransfer host2 page s.ledger s.storage).ledger.currentBalance
              = (JSNum.fin before).sub (.fin a2) ∧
            (JSNum.fin before).sub (.fin a2) = .fin r ∧ 0 ≤ r ∧ r ≤ b := by
  constructor
  · have hc := checks_of_amount a b ha hab
    have h1 : (parsedAmount amountValue).isNaN = false := by rw [hparse]; exact hc.1
    have h2 : (parsedAmount amountValue).le (.fin 0) = false := by rw [hparse]; exact hc.2.1
    have h5 : (parsedAmount amountValue).gt
        (Ledger.mk (.fin b) ts).currentBalance = false := by rw [hparse]; exact hc.2.2
    have h := processTransfer_accept host { currentBalance := .fin b, transactions := ts } w
      amountValue nameValue accountValue descriptionValue h1 h2 hname haccount h5
    have ht := processTransfer_accept_true host
      { currentBalance := .fin b, transactions := ts } w
      amountValue nameValue accountValue descriptionValue h1 h2 hname haccount h5 hview
    refine ⟨ht, ?_, sub_within b a b ha hab (le_refl _) hdouble, ?_⟩
    · rw [h.1, hparse]
    · intro hd
      exact hd
  · intro calls s hs
    have hnn : s.ledger.Within b := by
      rw [hs]
      exact runTransfers_within calls _ b hdouble ⟨b, rfl, hb, le_refl _⟩
    obtain ⟨before, hbefore, h0, hle⟩ := hnn
    refine ⟨before, hbefore, h0, hle, ?_⟩
    intro host2 page hres
    obtain ⟨av, a2, hav, hp, hpos, hle2, hbal⟩ :=
      processTransfer_true_debits host2 page s.ledger s.storage before hbefore hres
    obtain ⟨r, hr, hr0, hrb⟩ := sub_within before a2 b hpos hle2 hle hdouble
    exact ⟨av, a2, r, hav, hp, hpos, hle2, hbal, hr, hr0, hrb⟩

/-- Witness of C1: the fourth scenario, paying out the whole balance 399999000.00. -/
theorem processTransfer_debits_exactly_witness :
    (processTransfer sampleHost (Page.ofValues "399999000.00" "Pay All" "ACC1" "")
        { currentBalance := .fin 399999000, transactions := [] } freshStorage).result
        = .normal true ∧
      (processTransfer sampleHost (Page.ofValues "399999000.00" "Pay All" "ACC1" "")
        { currentBalance := .fin 399999000, transactions := [] }
        freshStorage).ledger.currentBalance
        = (JSNum.fin 399999000).sub (.fin 399999000) ∧
      (∃ r : ℚ, (JSNum.fin 399999000).sub (.fin 399999000) = .fin r ∧ 0 ≤ r ∧
        r ≤ 399999000) ∧
      (IsDouble (399999000 - 399999000) →
        (JSNum.fin 399999000).sub (.fin 399999000) = .fin (399999000 - 399999000)) :=
  (processTransfer_debits_exactly sampleHost freshStorage [] 399999000 399999000
    "399999000.00" "Pay All" "ACC1" "" isDouble_399999000 (by norm_num)
    parsedAmount_399999000 (by norm_num) (by norm_num) (by decide) (by decide)
    (Or.inr rfl)).1

/-- C2: an invalid transfer (the amount does not parse to a number, the amount is `<= 0`,
the recipient name or the recipient account is empty after trimming, or the amount is
greater than the balance) makes `processTransfer` return false and leaves the balance, the
transactions and the backends as they were. -/
theorem processTransfer_rejects_invalid (host : Host) (st : Ledger) (w : Storage)
    (amountValue nameValue accountValue descriptionValue : String)
    (h : (parsedAmount amountValue).isNaN = true ∨
      (parsedAmount amountValue).le (.fin 0) = true ∨
      trim nameValue = "" ∨ trim accountValue = "" ∨
      (parsedAmount amountValue).gt st.currentBalance = true) :
    (processTransfer host (Page.ofValues amountValue nameValue accountValue descriptionValue)
        st w).result = .normal false ∧
    (processTransfer host (Page.ofValues amountValue nameValue accountValue descriptionValue)
        st w).ledger.currentBalance = st.currentBalance ∧
    (processTransfer host (Page.ofValues amountValue nameValue accountValue descriptionValue)
        st w).ledger.transactions = st.transactions ∧
    (processTransfer host (Page.ofValues amountValue nameValue accountValue descriptionValue)
        st w).storage = w := by
  rcases processTransfer_cases host st w amountValue nameValue accountValue descriptionValue
    with hr | ⟨h1, h2, h3, h4, h5⟩
  · exact ⟨hr.1, by rw [hr.2.1], by rw [hr.2.1], hr.2.2⟩
  · rcases h with h | h | h | h | h
    · rw [h1] at h; simp at h
    · rw [h2] at h; simp at h
    · exact absurd h h3
    · exact absurd h h4
    · rw [h5] at h; simp at h

/-- Witness of C2: the second scenario, 500,000,000.00 asked from a balance of
399999000.00 (amount greater than the balance), and the amount `1e-400` asked from the
seed state (it reads as zero). -/
theorem processTransfer_rejects_invalid_witness :
    ((processTransfer sampleHost (Page.ofValues "500,000,000.00" "Jane" "ACC999" "")
        { currentBalance := .fin 399999000, transactions := [] } freshStorage).result
        = .normal false ∧
    (processTransfer sampleHost (Page.ofValues "500,000,000.00" "Jane" "ACC999" "")
        { currentBalance := .fin 399999000, transactions := [] }
        freshStorage).ledger.currentBalance = .fin 399999000 ∧
    (processTransfer sampleHost (Page.ofValues "500,000,000.00" "Jane" "ACC999" "")
        { currentBalance := .fin 399999000, transactions := [] }
        freshStorage).ledger.transactions = [] ∧
    (processTransfer sampleHost (Page.ofValues "500,000,000.00" "Jane" "ACC999" "")
        { currentBalance := .fin 399999000, transactions := [] } freshStorage).storage
        = freshStorage) ∧
    ((processTransfer sampleHost (Page.ofValues "1e-400" "Jane" "ACC999" "")
        Ledger.initial freshStorage).result = .normal false ∧
    (processTransfer sampleHost (Page.ofValues "1e-400" "Jane" "ACC999" "")
        Ledger.initial freshStorage).ledger.currentBalance = Ledger.initial.currentBalance ∧
    (processTransfer sampleHost (Page.ofValues "1e-400" "Jane" "ACC999" "")
        Ledger.initial freshStorage).ledger.transactions = Ledger.initial.transactions ∧
    (processTransfer sampleHost (Page.ofValues "1e-400" "Jane" "ACC999" "")
        Ledger.initial freshStorage).storage = freshStorage) :=
  ⟨processTransfer_rejects_invalid sampleHost
    { currentBalance := .fin 399999000, transactions := [] } freshStorage
    "500,000,000.00" "Jane" "ACC999" ""
    (Or.inr (Or.inr (Or.inr (Or.inr (by
      rw [parsedAmount_500000000]; simp only [JSNum.gt, JSNum.lt]; norm_num))))),
   processTransfer_rejects_invalid sampleHost Ledger.initial freshStorage
    "1e-400" "Jane" "ACC999" ""
    (Or.inr (Or.inl (by rw [parsedAmount_tiny]; simp [JSNum.le])))⟩

/-- C3: when `processTransfer` returns true, the record it puts in front of the history
has `remainingBalance` equal to the balance right after the debit, which is the old
balance minus the amount, `amount` equal to the transferred amount, and `recipientName`
equal to the upper-cased trimmed name that was typed. -/
theorem processTransfer_record_fields (host : Host) (st : Ledger) (w : Storage)
    (amountValue nameValue accountValue descriptionValue : String)
    (h : (processTransfer host
        (Page.ofValues amountValue nameValue accountValue descriptionValue) st w).result
        = .normal true) :
    ∃ record : JSVal,
      (processTransfer host (Page.ofValues amountValue nameValue accountValue descriptionValue)
        st w).ledger.transactions = record :: st.transactions ∧
      (processTransfer host (Page.ofValues amountValue nameValue accountValue descriptionValue)
        st w).ledger.currentBalance = st.currentBalance.sub (parsedAmount amountValue) ∧
      record.get "remainingBalance" =
        some (.num (processTransfer host
          (Page.ofValues amountValue nameValue accountValue descriptionValue)
          st w).ledger.currentBalance) ∧
      record.get "amount" = some (.num (parsedAmount amountValue)) ∧
      record.get "recipientName" = some (.str (host.toUpperCase (trim nameValue))) := by
  rcases processTransfer_cases host st w amountValue nameValue accountValue descriptionValue
    with hr | ⟨h1, h2, h3, h4, h5⟩
  · rw [hr.1] at h; simp at h
  · have hacc := processTransfer_accept host st w amountValue nameValue accountValue
      descriptionValue h1 h2 h3 h4 h5
    rw [hacc.1]
    exact ⟨_, rfl, rfl, rfl, rfl, rfl⟩

/-- Witness of C3: the first scenario, 1000.00 sent to John Doe. -/
theorem processTransfer_record_fields_witness :
    ∃ record : JSVal,
      (processTransfer sampleHost (Page.ofValues "1000.00" "John Doe" "ACC123" "Lunch")
        Ledger.initial freshStorage).ledger.transactions
        = record :: Ledger.initial.transactions ∧
      (processTransfer sampleHost (Page.ofValues "1000.00" "John Doe" "ACC123" "Lunch")
        Ledger.initial freshStorage).ledger.currentBalance
        = Ledger.initial.currentBalance.sub (parsedAmount "1000.00") ∧
      record.get "remainingBalance" =
        some (.num (processTransfer sampleHost
          (Page.ofValues "1000.00" "John Doe" "ACC123" "Lunch")
          Ledger.initial freshStorage).ledger.currentBalance) ∧
      record.get "amount" = some (.num (parsedAmount "1000.00")) ∧
      record.get "recipientName" = some (.str (sampleHost.toUpperCase (trim "John Doe"))) :=
  processTransfer_record_fields sampleHost Ledger.initial freshStorage
    "1000.00" "John Doe" "ACC123" "Lunch" (scenario1_accepted freshStorage "Lunch").1

/-- The record of an accepted call, written with `transferRecord`. -/
theorem processTransfer_true_record (host : Host) (st : Ledger) (w : Storage)
    (amountValue nameValue accountValue descriptionValue : String)
    (h : (processTransfer host
        (Page.ofValues amountValue nameValue accountValue descriptionValue) st w).result
        = .normal true) :
    (processTransfer host (Page.ofValues amountValue nameValue accountValue descriptionValue)
        st w).ledger.transactions =
      transferRecord host st amountValue nameValue accountValue descriptionValue
        :: st.transactions := by
  rcases processTransfer_cases host st w amountValue nameValue accountValue descriptionValue
    with hr | ⟨h1, h2, h3, h4, h5⟩
  · rw [hr.1] at h; simp at h
  · rw [(processTransfer_accept host st w amountValue nameValue accountValue
      descriptionValue h1 h2 h3 h4 h5).1]
    rfl

/-- C7: every successful `processTransfer` puts its record at index 0, makes the history
one longer and moves each earlier record from index `i` to index `i + 1`; so after two
successful transfers T1 then T2, index 0 holds the record of T2 and index 1 the record of
T1, above the untouched older history. -/
theorem processTransfer_newest_first (host1 host2 : Host) (st : Ledger) (w : Storage)
    (amount1 name1 account1 description1 amount2 name2 account2 description2 : String)
    (h1 : (processTransfer host1 (Page.ofValues amount1 name1 account1 description1)
        st w).result = .normal true)
    (h2 : (processTransfer host2 (Page.ofValues amount2 name2 account2 description2)
        (processTransfer host1 (Page.ofValues amount1 name1 account1 description1)
          st w).ledger
        (processTransfer host1 (Page.ofValues amount1 name1 account1 description1)
          st w).storage).result = .normal true) :
    ∃ (t1 t2 : JSVal) (after1 after2 : List JSVal),
      t1 = transferRecord host1 st amount1 name1 account1 description1 ∧
      t2 = transferRecord host2
        (processTransfer host1 (Page.ofValues amount1 name1 account1 description1)
          st w).ledger amount2 name2 account2 description2 ∧
      after1 = (processTransfer host1 (Page.ofValues amount1 name1 account1 description1)
        st w).ledger.transactions ∧
      after2 = (processTransfer host2 (Page.ofValues amount2 name2 account2 description2)
        (processTransfer host1 (Page.ofValues amount1 name1 account1 description1)
          st w).ledger
        (processTransfer host1 (Page.ofValues amount1 name1 account1 description1)
          st w).storage).ledger.transactions ∧
      after1[0]? = some t1 ∧
      after1.length = st.transactions.length + 1 ∧
      (∀ i : Nat, after1[i + 1]? = st.transactions[i]?) ∧
      after2[0]? = some t2 ∧ after2[1]? = some t1 ∧
      after2.length = after1.length + 1 ∧
      (∀ i : Nat, after2[i + 1]? = after1[i]?) := by
  have e1 := processTransfer_true_record host1 st w amount1 name1 account1 description1 h1
  have e2 := processTransfer_true_record host2 _ _ amount2 name2 account2 description2 h2
  refine ⟨_, _, _, _, rfl, rfl, rfl, rfl, ?_⟩
  rw [e2, e1]
  simp

/-- Witness of C7: 1000.00 to John Doe, then the remaining 399999000.00 to Pay All. -/
theorem processTransfer_newest_first_witness :
    ∃ (t1 t2 : JSVal) (after1 after2 : List JSVal),
      t1 = transferRecord sampleHost Ledger.initial "1000.00" "John Doe" "ACC123" "Lunch" ∧
      t2 = transferRecord sampleHost
        (processTransfer sampleHost (Page.ofValues "1000.00" "John Doe" "ACC123" "Lunch")
          Ledger.initial freshStorage).ledger "399999000.00" "Pay All" "ACC1" "" ∧
      after1 = (processTransfer sampleHost
        (Page.ofValues "1000.00" "John Doe" "ACC123" "Lunch")
        Ledger.initial freshStorage).ledger.transactions ∧
      after2 = (processTransfer sampleHost (Page.ofValues "399999000.00" "Pay All" "ACC1" "")
        (processTransfer sampleHost (Page.ofValues "1000.00" "John Doe" "ACC123" "Lunch")
          Ledger.initial freshStorage).ledger
        (processTransfer sampleHost (Page.ofValues "1000.00" "John Doe" "ACC123" "Lunch")
          Ledger.initial freshStorage).storage).ledger.transactions ∧
      after1[0]? = some t1 ∧
      after1.length = Ledger.initial.transactions.length + 1 ∧
      (∀ i : Nat, after1[i + 1]? = Ledger.initial.transactions[i]?) ∧
      after2[0]? = some t2 ∧ after2[1]? = some t1 ∧
      after2.length = after1.length + 1 ∧
      (∀ i : Nat, after2[i + 1]? = after1[i]?) :=
  processTransfer_newest_first sampleHost sampleHost Ledger.initial freshStorage
    "1000.00" "John Doe" "ACC123" "Lunch" "399999000.00" "Pay All" "ACC1" ""
    (scenario1_accepted freshStorage "Lunch").1
    (by
      have hc := checks_of_amount 399999000 399999000 (by norm_num) (by norm_num)
      rw [(scenario1_accepted freshStorage "Lunch").2]
      exact processTransfer_accept_true sampleHost _ _ "399999000.00" "Pay All" "ACC1" ""
        (by rw [parsedAmount_399999000]; exact hc.1)
        (by rw [parsedAmount_399999000]; exact hc.2.1)
        (by decide) (by decide) (by rw [parsedAmount_399999000]; exact hc.2.2)
        (Or.inr (by
          simp only [List.any_cons, List.any_nil, entryRaises_newTransaction]
          rfl)))

/-- What `processTransfer` stores as description: the trimmed input, or the text
`Transaction` when the input is blank. -/
theorem transferRecord_description (host : Host) (st : Ledger)
    (amountValue nameValue accountValue descriptionValue : String) :
    (transferRecord host st amountValue nameValue accountValue descriptionValue).get
        "description" =
      some (.str (if trim descriptionValue = "" then "Transaction"
        else trim descriptionValue)) := by
  have hget : (transferRecord host st amountValue nameValue accountValue
      descriptionValue).get "description" =
      some (.str (strOr (strOr (trim descriptionValue) "Transaction") "No description")) :=
    rfl
  rw [hget]
  by_cases h : trim descriptionValue = ""
  · rw [if_pos h, h]
    have : strOr (strOr "" "Transaction") "No description" = "Transaction" := by decide
    rw [this]
  · rw [if_neg h]
    have ht := (strTruthy_iff _).2 h
    simp [strOr, ht]

/-- C9, evaluated on the code: an accepted transfer whose description field holds only
white space is recorded with the description `Transaction`, not with the placeholder
`No description`. -/
theorem processTransfer_blank_description :
    (processTransfer sampleHost (Page.ofValues "1000.00" "John Doe" "ACC123" "   ")
      Ledger.initial freshStorage).result = .normal true ∧
    ∃ record : JSVal,
      (processTransfer sampleHost (Page.ofValues "1000.00" "John Doe" "ACC123" "   ")
        Ledger.initial freshStorage).ledger.transactions = [record] ∧
      record.get "description" = some (.str "Transaction") ∧
      record.get "description" ≠ some (.str "No description") := by
  have h := scenario1_accepted freshStorage "   "
  have hrec := processTransfer_true_record sampleHost Ledger.initial freshStorage
    "1000.00" "John Doe" "ACC123" "   " h.1
  have hd := transferRecord_description sampleHost Ledger.initial
    "1000.00" "John Doe" "ACC123" "   "
  have hblank : trim "   " = "" := by decide
  rw [if_pos hblank] at hd
  refine ⟨h.1, _, hrec, hd, ?_⟩
  rw [hd]
  intro hcontra
  have hs : ("Transaction" : String) = "No description" := by
    injection hcontra with h1
    injection h1
  exact absurd hs (by decide)

/-! ## Persistence -/

/-- The result of `saveData` in every environment: it never raises; it returns true
exactly when no handler met a `null` or `undefined` rejection and at least one write
succeeded; and unless the handler of backend A met such a rejection, the fallback write is
made (backend B holds the snapshot afterwards when `setItem` does not raise). -/
theorem saveData_true_iff_some_write (host : Host) (st : Ledger) (w : Storage) :
    ∃ ok : Bool, (saveData host st w).1 = .normal ok ∧
      (ok = true ↔
        (w.primary.setFn ≠ some (.raises .nullish) ∧
          w.fallback.setItemRaises ≠ some .nullish ∧
          ((∃ stores, w.primary.setFn = some (.replies true stores)) ∨
            w.fallback.setItemRaises = none))) ∧
      (w.primary.setFn ≠ some (.raises .nullish) → w.fallback.setItemRaises = none →
        (saveData host st w).2.fallback.cell =
          some (JSON.stringify (snapshot st.currentBalance st.transactions host.isoString))) := by
  obtain ⟨⟨setFn, getFn, cellA⟩, ⟨sr, gr, cellB⟩⟩ := w
  unfold saveData
  rw [parseFloat_num]
  cases setFn with
  | none =>
    cases sr with
    | none => simp [savePrimary, saveFallback, Fallback.setItem]
    | some e => cases e <;> simp [savePrimary, saveFallback, Fallback.setItem, Thrown.message]
  | some b =>
    cases b with
    | raises e =>
      cases e with
      | nullish => simp [savePrimary, Primary.set, Thrown.message]
      | error =>
        cases sr with
        | none => simp [savePrimary, saveFallback, Primary.set, Fallback.setItem, Thrown.message]
        | some e2 =>
          cases e2 <;>
            simp [savePrimary, saveFallback, Primary.set, Fallback.setItem, Thrown.message]
    | replies t stores =>
      cases sr with
      | none => cases t <;> simp [savePrimary, saveFallback, Primary.set, Fallback.setItem]
      | some e2 =>
        cases t <;> cases e2 <;>
          simp [savePrimary, saveFallback, Primary.set, Fallback.setItem, Thrown.message]

/-- C4, evaluated on the code: `window.storage.set` rejects with `undefined` while
`localStorage` works.  The handler of the rejection raises on `e.message`, the outer
`catch` returns false, and `localStorage.setItem` is never called: backend B still holds
nothing.  With a rejection that carries an error object the same call writes to
backend B and returns true. -/
theorem saveData_skips_fallback_on_nullish_rejection :
    rejectingPrimaryStorage.primary.setFn = some (.raises .nullish) ∧
    rejectingPrimaryStorage.fallback.setItemRaises = none ∧
    (saveData sampleHost sampleLedger rejectingPrimaryStorage).1 = .normal false ∧
    (saveData sampleHost sampleLedger rejectingPrimaryStorage).2.fallback.cell = none ∧
    (saveData sampleHost sampleLedger raisingPrimaryStorage).1 = .normal true ∧
    (saveData sampleHost sampleLedger raisingPrimaryStorage).2.fallback.cell =
      some (JSON.stringify
        (snapshot sampleLedger.currentBalance sampleLedger.transactions
          sampleHost.isoString)) := by
  refine ⟨rfl, rfl, rfl, rfl, rfl, rfl⟩

mutual
/-- JSON writes and reads back unchanged a value whose numbers are all finite. -/
theorem jsonImage_of_jsonSafe : ∀ v : JSVal, v.jsonSafe = true → v.jsonImage = v
  | .null, _ => by simp [JSVal.jsonImage]
  | .bool _, _ => by simp [JSVal.jsonImage]
  | .str _, _ => by simp [JSVal.jsonImage]
  | .num .nan, h => by simp [JSVal.jsonSafe] at h
  | .num .negInf, h => by simp [JSVal.jsonSafe] at h
  | .num .posInf, h => by simp [JSVal.jsonSafe] at h
  | .num (.fin _), _ => by simp [JSVal.jsonImage]
  | .arr items, h => by
    have hs : JSVal.jsonSafeList items = true := by simpa [JSVal.jsonSafe] using h
    simp [JSVal.jsonImage, jsonImageList_of_jsonSafe items hs]
  | .obj props, h => by
    have hs : JSVal.jsonSafeProps props = true := by simpa [JSVal.jsonSafe] using h
    simp [JSVal.jsonImage, jsonImageProps_of_jsonSafe props hs]
/-- The same for the items of an array. -/
theorem jsonImageList_of_jsonSafe :
    ∀ items : List JSVal, JSVal.jsonSafeList items = true → JSVal.jsonImageList items = items
  | [], _ => by simp [JSVal.jsonImageList]
  | v :: rest, h => by
    have hs : v.jsonSafe = true ∧ JSVal.jsonSafeList rest = true := by
      simpa [JSVal.jsonSafeList] using h
    simp [JSVal.jsonImageList, jsonImage_of_jsonSafe v hs.1,
      jsonImageList_of_jsonSafe rest hs.2]
/-- The same for the properties of an object. -/
theorem jsonImageProps_of_jsonSafe :
    ∀ props : List (String × JSVal),
      JSVal.jsonSafeProps props = true → JSVal.jsonImageProps props = props
  | [], _ => by simp [JSVal.jsonImageProps]
  | (k, v) :: rest, h => by
    have hs : v.jsonSafe = true ∧ JSVal.jsonSafeProps rest = true := by
      simpa [JSVal.jsonSafeProps] using h
    simp [JSVal.jsonImageProps, jsonImage_of_jsonSafe v hs.1,
      jsonImageProps_of_jsonSafe rest hs.2]
end

/-- The value that `JSON.parse` reads from a saved snapshot with a finite balance. -/
theorem jsonImage_snapshot (q : ℚ) (ts : List JSVal) (iso : String) :
    (snapshot (.fin q) ts iso).jsonImage =
      .obj [("balance", .num (.fin q)), ("transactions", .arr (JSVal.jsonImageList ts)),
        ("lastUpdate", .str iso)] := by
  simp [snapshot, JSVal.jsonImage, JSVal.jsonImageProps]

/-- The function `loadData` restores from the selected snapshot. -/
theorem loadData_eq (st : Ledger) (w : Storage) :
    loadData st w = restoreFrom st (loadSelect w) := by
  unfold loadData loadSelect
  cases loadRead w with
  | normal data => rfl
  | abrupt e => simp [restoreFrom, JSVal.truthy]

/-- Loading when the selected snapshot is a saved snapshot with a finite balance. -/
theorem loadData_of_snapshot (st : Ledger) (w : Storage) (q : ℚ) (ts : List JSVal)
    (iso : String) (h : loadSelect w = (snapshot (.fin q) ts iso).jsonImage) :
    loadData st w =
      (.normal true, { currentBalance := .fin q, transactions := JSVal.jsonImageList ts }) := by
  rw [loadData_eq, h, jsonImage_snapshot]
  unfold restoreFrom
  have hb : (JSVal.obj [("balance", .num (.fin q)),
      ("transactions", .arr (JSVal.jsonImageList ts)), ("lastUpdate", .str iso)]).get "balance"
      = some (.num (.fin q)) := rfl
  have ht : (JSVal.obj [("balance", .num (.fin q)),
      ("transactions", .arr (JSVal.jsonImageList ts)),
      ("lastUpdate", .str iso)]).get "transactions"
      = some (.arr (JSVal.jsonImageList ts)) := rfl
  simp only [hb, ht, parseFloat_num, JSVal.truthy, if_true]

/-- Loading when no truthy snapshot was selected. -/
theorem loadData_of_falsy (st : Ledger) (w : Storage) (h : (loadSelect w).truthy = false) :
    loadData st w = (.normal false, st) := by
  rw [loadData_eq]
  unfold restoreFrom
  simp [h]

/-- Counterexample to C5: backend A is absent and backend B works.  A ledger whose balance
is `NaN` is saved (JSON writes the balance as `null`) and `saveData` returns true; the
`loadData` that follows, started from a ledger with balance 7, finds the balance field
null and keeps 7: the saved balance is not restored. -/
theorem save_then_load_loses_nan_balance :
    freshStorage.primary.setFn = none ∧ freshStorage.primary.getFn = none ∧
    freshStorage.fallback.Works ∧
    (saveData sampleHost { currentBalance := .nan, transactions := [] } freshStorage).1
      = .normal true ∧
    (loadData { currentBalance := .fin 7, transactions := [] }
      (saveData sampleHost { currentBalance := .nan, transactions := [] } freshStorage).2).1
      = .normal true ∧
    (loadData { currentBalance := .fin 7, transactions := [] }
      (saveData sampleHost { currentBalance := .nan, transactions := [] }
        freshStorage).2).2.currentBalance = .fin 7 ∧
    (loadData { currentBalance := .fin 7, transactions := [] }
      (saveData sampleHost { currentBalance := .nan, transactions := [] }
        freshStorage).2).2.currentBalance ≠ .nan := by
  have hbal : (loadData { currentBalance := .fin 7, transactions := [] }
      (saveData sampleHost { currentBalance := .nan, transactions := [] }
        freshStorage).2).2.currentBalance = .fin 7 := rfl
  refine ⟨rfl, rfl, ⟨rfl, rfl⟩, rfl, rfl, hbal, ?_⟩
  rw [hbal]
  simp

/-- C5, amended: save then load.  For every ledger whose balance is a finite number and
whose transactions hold only finite numbers, if backend A works (backend B doing
anything but raise `null` or `undefined` when written), or backend B works while backend A
is absent or raises an error value on every call, then `saveData` returns true and a
`loadData` that follows, started from any in-memory ledger, returns true and restores the
saved balance and the saved transactions, item by item. -/
theorem save_then_load_restores (host : Host) (st st0 : Ledger) (w : Storage) (q : ℚ)
    (hbalance : st.currentBalance = .fin q)
    (hsafe : JSVal.jsonSafeList st.transactions = true)
    (hbackend : (w.primary.Works ∧ w.fallback.setItemRaises ≠ some .nullish) ∨
      (w.fallback.Works ∧ w.primary.Down)) :
    (saveData host st w).1 = .normal true ∧
    (loadData st0 (saveData host st w).2).1 = .normal true ∧
    (loadData st0 (saveData host st w).2).2.currentBalance = st.currentBalance ∧
    (loadData st0 (saveData host st w).2).2.transactions = st.transactions ∧
    (loadData st0 (saveData host st w).2).2.transactions.length = st.transactions.length := by
  have key : (saveData host st w).1 = .normal true ∧
      loadSelect (saveData host st w).2 =
        (snapshot (.fin q) st.transactions host.isoString).jsonImage := by
    obtain ⟨⟨setFn, getFn, cellA⟩, ⟨sr, gr, cellB⟩⟩ := w
    unfold saveData
    rw [parseFloat_num, hbalance]
    rcases hbackend with ⟨⟨hs, hg⟩, hnot⟩ | ⟨⟨hs, hg⟩, hdown⟩
    · simp only at hs hg hnot
      subst hs hg
      cases sr with
      | none =>
        simp [savePrimary, saveFallback, Fallback.setItem, Primary.set, loadSelect, loadRead,
          loadPrimary, Primary.get, JSON.stringify, Text.truthy, JSON.parse,
          jsonImage_snapshot, JSVal.truthy]
      | some e =>
        cases e with
        | nullish => exact absurd rfl hnot
        | error =>
          simp [savePrimary, saveFallback, Fallback.setItem, Primary.set, loadSelect,
            loadRead, loadPrimary, Primary.get, JSON.stringify, Text.truthy, JSON.parse,
            jsonImage_snapshot, JSVal.truthy, Thrown.message]
    · simp only at hs hg
      subst hs hg
      rcases hdown with ⟨h1, h2⟩ | ⟨h1, h2⟩
      · simp only at h1 h2
        subst h1 h2
        simp [savePrimary, saveFallback, Fallback.setItem, loadSelect, loadRead, loadPrimary,
          loadFallback, Fallback.getItem, JSON.stringify, Text.truthy, JSON.parse,
          JSVal.truthy]
      · simp only at h1 h2
        subst h1 h2
        simp [savePrimary, saveFallback, Fallback.setItem, Primary.set, loadSelect, loadRead,
          loadPrimary, loadFallback, Primary.get, Fallback.getItem, JSON.stringify,
          Text.truthy, JSON.parse, JSVal.truthy, Thrown.message]
  have hload := loadData_of_snapshot st0 _ q st.transactions host.isoString key.2
  rw [hload, hbalance, jsonImageList_of_jsonSafe _ hsafe]
  exact ⟨key.1, rfl, rfl, rfl, rfl⟩

/-- Witness of C5: the fifth scenario, a ledger with one transaction saved and loaded
while backend A raises an error on every call. -/
theorem save_then_load_restores_witness :
    (saveData sampleHost sampleLedger raisingPrimaryStorage).1 = .normal true ∧
    (loadData Ledger.initial (saveData sampleHost sampleLedger raisingPrimaryStorage).2).1
      = .normal true ∧
    (loadData Ledger.initial
      (saveData sampleHost sampleLedger raisingPrimaryStorage).2).2.currentBalance
      = sampleLedger.currentBalance ∧
    (loadData Ledger.initial
      (saveData sampleHost sampleLedger raisingPrimaryStorage).2).2.transactions
      = sampleLedger.transactions ∧
    (loadData Ledger.initial
      (saveData sampleHost sampleLedger raisingPrimaryStorage).2).2.transactions.length
      = sampleLedger.transactions.length :=
  save_then_load_restores sampleHost sampleLedger Ledger.initial raisingPrimaryStorage
    399999000 rfl rfl (Or.inr ⟨⟨rfl, rfl⟩, Or.inr ⟨rfl, rfl⟩⟩)

/-- The function `loadData` depends on the backends only through the selected
snapshot. -/
theorem loadData_congr (st : Ledger) (w w2 : Storage) (h : loadSelect w = loadSelect w2) :
    loadData st w = loadData st w2 := by
  rw [loadData_eq, loadData_eq, h]

/-- Counterexample to C6: backend B holds a snapshot that parses, whose `transactions`
field is an array and whose `balance` field is present and not null, yet `loadData`
restores neither field and returns false, because coercing the balance raises inside the
outer `try`. -/
theorem loadData_keeps_all_when_coercion_raises :
    loadSelect (fallbackHolding (.json shadowedBalanceSnapshot)) = shadowedBalanceSnapshot ∧
    shadowedBalanceSnapshot.get "transactions" = some (.arr []) ∧
    shadowedBalanceSnapshot.get "balance" = some (.obj [("toString", .num (.fin 1))]) ∧
    parseFloat (.obj [("toString", .num (.fin 1))]) = .abrupt "TypeError" ∧
    (loadData { currentBalance := .fin 5, transactions := [.str "kept"] }
      (fallbackHolding (.json shadowedBalanceSnapshot))).1 = .normal false ∧
    (loadData { currentBalance := .fin 5, transactions := [.str "kept"] }
      (fallbackHolding (.json shadowedBalanceSnapshot))).2.transactions = [.str "kept"] ∧
    (loadData { currentBalance := .fin 5, transactions := [.str "kept"] }
      (fallbackHolding (.json shadowedBalanceSnapshot))).2.transactions ≠ [] ∧
    (loadData { currentBalance := .fin 5, transactions := [.str "kept"] }
      (fallbackHolding (.json shadowedBalanceSnapshot))).2.currentBalance = .fin 5 := by
  refine ⟨rfl, rfl, rfl, rfl, rfl, rfl, ?_, rfl⟩
  have h : (loadData { currentBalance := .fin 5, transactions := [.str "kept"] }
      (fallbackHolding (.json shadowedBalanceSnapshot))).2.transactions = [.str "kept"] := rfl
  rw [h]
  simp

/-- Loading when coercing the `balance` field of the selected snapshot raises. -/
theorem loadData_of_raising_balance (st : Ledger) (w : Storage) (b : JSVal)
    (hb : (loadSelect w).get "balance" = some b) (hr : b.toStringRaises = true) :
    loadData st w = (.normal false, st) := by
  rw [loadData_eq]
  unfold restoreFrom
  simp only [hb]
  cases b <;> simp_all [parseFloat, JSVal.toStringRaises]

/-- Loading a truthy snapshot whose `balance` field is missing or null. -/
theorem loadData_of_absent_balance (st : Ledger) (w : Storage)
    (ht : (loadSelect w).truthy = true)
    (hb : (loadSelect w).get "balance" = none ∨ (loadSelect w).get "balance" = some .null) :
    loadData st w =
      (.normal true,
        { currentBalance := st.currentBalance
          transactions :=
            match (loadSelect w).get "transactions" with
            | some (.arr items) => items
            | _ => st.transactions }) := by
  rw [loadData_eq]
  unfold restoreFrom
  rcases hb with hb | hb <;> simp only [ht, hb, if_true]

/-- Loading a truthy snapshot whose `balance` field is present, not null, and coerces
without raising. -/
theorem loadData_of_balance (st : Ledger) (w : Storage) (b : JSVal)
    (ht : (loadSelect w).truthy = true)
    (hb : (loadSelect w).get "balance" = some b) (hn : b ≠ .null)
    (hr : b.toStringRaises = false) :
    loadData st w =
      (.normal true,
        { currentBalance := b.parseFloatOf
          transactions :=
            match (loadSelect w).get "transactions" with
            | some (.arr items) => items
            | _ => st.transactions }) := by
  rw [loadData_eq]
  unfold restoreFrom
  simp only [ht, hb, if_true]
  cases b <;> simp_all [parseFloat]

/-- The transactions kept or restored by a successful load. -/
theorem restored_transactions (data : JSVal) (old : List JSVal) :
    (∀ items, data.get "transactions" = some (.arr items) →
      (match data.get "transactions" with
        | some (.arr items) => items
        | _ => old) = items) ∧
    ((∀ items, data.get "transactions" ≠ some (.arr items)) →
      (match data.get "transactions" with
        | some (.arr items) => items
        | _ => old) = old) := by
  constructor
  · intro items h
    simp only [h]
  · intro h
    split
    · rename_i items hi
      exact absurd hi (h items)
    · rfl

/-- C6, amended: `loadData` never raises.  With `data` the snapshot it selected, it returns
true exactly when `data` is truthy and coercing its `balance` field does not raise.  In
that case the balance becomes the `balance` field coerced to a number when that field is
present and not null and is kept otherwise, and the transactions become the `transactions`
field when that field is an array and are kept otherwise.  When it returns false (no data,
malformed data, a falsy value, or a balance whose coercion raises) the ledger is
unchanged. -/
theorem loadData_restores_fields (st : Ledger) (w : Storage) :
    ∃ ok : Bool, (loadData st w).1 = .normal ok ∧
      ok = ((loadSelect w).truthy && !balanceRaises (loadSelect w)) ∧
      (ok = true → ∀ b, (loadSelect w).get "balance" = some b → b ≠ .null →
        (loadData st w).2.currentBalance = b.parseFloatOf) ∧
      (ok = true →
        ((loadSelect w).get "balance" = none ∨ (loadSelect w).get "balance" = some .null) →
        (loadData st w).2.currentBalance = st.currentBalance) ∧
      (ok = true → ∀ items, (loadSelect w).get "transactions" = some (.arr items) →
        (loadData st w).2.transactions = items) ∧
      (ok = true → (∀ items, (loadSelect w).get "transactions" ≠ some (.arr items)) →
        (loadData st w).2.transactions = st.transactions) ∧
      (ok = false → (loadData st w).2 = st) := by
  have hT := restored_transactions (loadSelect w) st.transactions
  cases ht : (loadSelect w).truthy with
  | false =>
    rw [loadData_of_falsy st w ht]
    exact ⟨false, rfl, by simp, by simp, by simp, by simp, by simp, fun _ => rfl⟩
  | true =>
    cases hb : (loadSelect w).get "balance" with
    | none =>
      rw [loadData_of_absent_balance st w ht (Or.inl hb)]
      refine ⟨true, rfl, by simp [balanceRaises, hb], ?_, fun _ _ => rfl, ?_, ?_, by simp⟩
      · intro _ b h; simp at h
      · intro _ items hi; exact hT.1 items hi
      · intro _ hi; exact hT.2 hi
    | some b =>
      by_cases hnull : b = .null
      · subst hnull
        rw [loadData_of_absent_balance st w ht (Or.inr hb)]
        refine ⟨true, rfl, by simp [balanceRaises, hb, JSVal.toStringRaises], ?_,
          fun _ _ => rfl, ?_, ?_, by simp⟩
        · intro _ b h hn
          simp only [Option.some.injEq] at h
          exact absurd h.symm hn
        · intro _ items hi; exact hT.1 items hi
        · intro _ hi; exact hT.2 hi
      · cases hr : b.toStringRaises with
        | true =>
          rw [loadData_of_raising_balance st w b hb hr]
          exact ⟨false, rfl, by simp [balanceRaises, hb, hr], by simp, by simp, by simp,
            by simp, fun _ => rfl⟩
        | false =>
          rw [loadData_of_balance st w b ht hb hnull hr]
          refine ⟨true, rfl, by simp [balanceRaises, hb, hr], ?_, ?_, ?_, ?_, by simp⟩
          · intro _ b2 h _
            simp only [Option.some.injEq] at h
            subst h
            rfl
          · intro _ h
            rcases h with h | h
            · simp at h
            · simp only [Option.some.injEq] at h
              exact absurd h hnull
          · intro _ items hi; exact hT.1 items hi
          · intro _ hi; exact hT.2 hi

/-- When backend A reads a text that parses to a truthy value, that value is the selected
snapshot, whatever backend B holds. -/
theorem loadSelect_of_primary (A : Primary) (B : Fallback) (v : JSVal)
    (hget : A.getFn = some .reads) (hcell : A.cell = some (.json v))
    (htruthy : v.truthy = true) :
    loadSelect { primary := A, fallback := B } = v := by
  simp [loadSelect, loadRead, loadPrimary, hget, Primary.get, hcell, Text.truthy, JSON.parse,
    htruthy]

/-- When backend A yields nothing truthy and backend B returns a text that parses, the
value parsed from backend B is the selected snapshot. -/
theorem loadSelect_of_fallback (A : Primary) (B : Fallback) (v : JSVal)
    (hA : A.YieldsNothing) (hget : B.getItemRaises = none) (hcell : B.cell = some (.json v)) :
    loadSelect { primary := A, fallback := B } = v := by
  obtain ⟨setFn, getFn, cell⟩ := A
  obtain ⟨sr, gr, cellB⟩ := B
  simp only at hget hcell
  subst hget hcell
  rcases hA with h | h | ⟨h, hc⟩
  · simp only at h
    subst h
    simp [loadSelect, loadRead, loadPrimary, loadFallback, Fallback.getItem, JSVal.truthy,
      Text.truthy, JSON.parse]
  · simp only at h
    subst h
    simp [loadSelect, loadRead, loadPrimary, loadFallback, Fallback.getItem, JSVal.truthy,
      Text.truthy, JSON.parse, Primary.get, Thrown.message]
  · simp only at h hc
    subst h
    rcases hc with hc | hc | hc | ⟨v2, hc, hv2⟩
    · subst hc
      simp [loadSelect, loadRead, loadPrimary, loadFallback, Fallback.getItem, JSVal.truthy,
        Text.truthy, JSON.parse, Primary.get]
    · subst hc
      simp [loadSelect, loadRead, loadPrimary, loadFallback, Fallback.getItem, JSVal.truthy,
        Text.truthy, JSON.parse, Primary.get]
    · subst hc
      simp [loadSelect, loadRead, loadPrimary, loadFallback, Fallback.getItem, JSVal.truthy,
        Text.truthy, JSON.parse, Primary.get]
    · subst hc
      simp [loadSelect, loadRead, loadPrimary, loadFallback, Fallback.getItem,
        Text.truthy, JSON.parse, Primary.get, hv2]

/-- Counterexample to C10: backend A answers with the non-empty text `null`, which parses
successfully, and yet the restored state depends on backend B: with B empty nothing is
restored, with B holding a snapshot of balance -5 that balance is restored. -/
theorem loadData_falsy_primary_consults_fallback :
    primaryHoldingNull.get .reads = .returned (some (.json .null)) ∧
    (Text.json .null).truthy = true ∧
    JSON.parse (.json .null) = .normal .null ∧
    loadData Ledger.initial
      { primary := primaryHoldingNull, fallback := freshStorage.fallback }
      = (.normal false, Ledger.initial) ∧
    loadData Ledger.initial
      { primary := primaryHoldingNull
        fallback := (fallbackHolding (.json negativeBalanceSnapshot)).fallback }
      = (.normal true, { currentBalance := .fin (-5), transactions := [] }) := by
  refine ⟨rfl, rfl, rfl, rfl, ?_⟩
  have hsel : loadSelect
      { primary := primaryHoldingNull
        fallback := (fallbackHolding (.json negativeBalanceSnapshot)).fallback }
      = negativeBalanceSnapshot := rfl
  rw [loadData_of_balance Ledger.initial _ (.num (.fin (-5))) (by rw [hsel]; rfl)
    (by rw [hsel]; rfl) (by simp) rfl]
  rw [hsel]
  rfl

/-- C10, amended: when backend A answers with a text that parses to a truthy value, the
selected snapshot is that value and the state restored by `loadData` is the same whatever
backend B holds.  Backend B is consulted only when backend A yields nothing truthy (it
is missing, raises an error value, holds nothing, holds the empty text, holds a text
that does not parse, or holds a text that parses to a falsy value such as `null`,
`false`, `0` or the empty string): only then can the content of B change the result.  And
in each of those cases backend B is consulted: when its `getItem` returns a text that
parses, the value parsed from B is the snapshot that `loadData` restores from. -/
theorem loadData_primary_priority (A : Primary) (v : JSVal) (st : Ledger) (B1 B2 : Fallback)
    (hget : A.getFn = some .reads) (hcell : A.cell = some (.json v))
    (htruthy : v.truthy = true) :
    loadSelect { primary := A, fallback := B1 } = v ∧
    loadData st { primary := A, fallback := B1 } = loadData st { primary := A, fallback := B2 } ∧
    (∀ (A2 : Primary) (st2 : Ledger) (B B2 : Fallback),
      loadData st2 { primary := A2, fallback := B }
        ≠ loadData st2 { primary := A2, fallback := B2 } →
      A2.YieldsNothing) ∧
    (∀ (A2 : Primary) (st2 : Ledger) (B : Fallback) (v2 : JSVal),
      A2.YieldsNothing → B.getItemRaises = none → B.cell = some (.json v2) →
      loadSelect { primary := A2, fallback := B } = v2 ∧
        loadData st2 { primary := A2, fallback := B } = restoreFrom st2 v2) := by
  refine ⟨loadSelect_of_primary A B1 v hget hcell htruthy, ?_, ?_, ?_⟩
  · apply loadData_congr
    rw [loadSelect_of_primary A B1 v hget hcell htruthy,
      loadSelect_of_primary A B2 v hget hcell htruthy]
  · intro A2 st2 B B2 hne
    obtain ⟨setFn, getFn, cell⟩ := A2
    cases getFn with
    | none => exact Or.inl rfl
    | some g =>
      cases g with
      | raises e =>
        cases e with
        | error => exact Or.inr (Or.inl rfl)
        | nullish =>
          exfalso
          apply hne
          simp [loadData, loadRead, loadPrimary, Primary.get, Thrown.message]
      | reads =>
        refine Or.inr (Or.inr ⟨rfl, ?_⟩)
        cases cell with
        | none => exact Or.inl rfl
        | some t =>
          cases t with
          | empty => exact Or.inr (Or.inl rfl)
          | malformed => exact Or.inr (Or.inr (Or.inl rfl))
          | json v2 =>
            cases hv : v2.truthy with
            | false => exact Or.inr (Or.inr (Or.inr ⟨v2, rfl, hv⟩))
            | true =>
              exfalso
              apply hne
              apply loadData_congr
              rw [loadSelect_of_primary _ B v2 rfl rfl hv,
                loadSelect_of_primary _ B2 v2 rfl rfl hv]
  · intro A2 st2 B v2 hA hg hc
    have hsel := loadSelect_of_fallback A2 B v2 hA hg hc
    exact ⟨hsel, by rw [loadData_eq, hsel]⟩

/-- Witness of C10: backend A holds a snapshot of balance -5; backend B is empty in one
run and holds the seed snapshot of the sample ledger in the other. -/
theorem loadData_primary_priority_witness :
    loadSelect
      { primary := { setFn := none, getFn := some .reads,
                     cell := some (.json negativeBalanceSnapshot) }
        fallback := freshStorage.fallback } = negativeBalanceSnapshot ∧
    loadData Ledger.initial
      { primary := { setFn := none, getFn := some .reads,
                     cell := some (.json negativeBalanceSnapshot) }
        fallback := freshStorage.fallback }
      = loadData Ledger.initial
        { primary := { setFn := none, getFn := some .reads,
                       cell := some (.json negativeBalanceSnapshot) }
          fallback := (fallbackHolding (JSON.stringify (snapshot sampleLedger.currentBalance
            sampleLedger.transactions sampleHost.isoString))).fallback } ∧
    (loadSelect
        { primary := raisingPrimaryStorage.primary
          fallback := (fallbackHolding (.json negativeBalanceSnapshot)).fallback }
        = negativeBalanceSnapshot ∧
      loadData Ledger.initial
        { primary := raisingPrimaryStorage.primary
          fallback := (fallbackHolding (.json negativeBalanceSnapshot)).fallback }
        = restoreFrom Ledger.initial negativeBalanceSnapshot) :=
  ⟨(loadData_primary_priority
      { setFn := none, getFn := some .reads, cell := some (.json negativeBalanceSnapshot) }
      negativeBalanceSnapshot Ledger.initial freshStorage.fallback
      (fallbackHolding (JSON.stringify (snapshot sampleLedger.currentBalance
        sampleLedger.transactions sampleHost.isoString))).fallback rfl rfl rfl).1,
    (loadData_primary_priority
      { setFn := none, getFn := some .reads, cell := some (.json negativeBalanceSnapshot) }
      negativeBalanceSnapshot Ledger.initial freshStorage.fallback
      (fallbackHolding (JSON.stringify (snapshot sampleLedger.currentBalance
        sampleLedger.transactions sampleHost.isoString))).fallback rfl rfl rfl).2.1,
    (loadData_primary_priority
      { setFn := none, getFn := some .reads, cell := some (.json negativeBalanceSnapshot) }
      negativeBalanceSnapshot Ledger.initial freshStorage.fallback
      (fallbackHolding (JSON.stringify (snapshot sampleLedger.currentBalance
        sampleLedger.transactions sampleHost.isoString))).fallback rfl rfl rfl).2.2.2
      raisingPrimaryStorage.primary Ledger.initial
      (fallbackHolding (.json negativeBalanceSnapshot)).fallback negativeBalanceSnapshot
      (Or.inr (Or.inl rfl)) rfl rfl⟩

/-! ## Non-negative balance -/

/-- After `saveData`, each backend cell holds what it held before or the snapshot just
serialised. -/
theorem saveData_cells (host : Host) (st : Ledger) (w : Storage) :
    ((saveData host st w).2.primary.cell = w.primary.cell ∨
      (saveData host st w).2.primary.cell =
        some (JSON.stringify (snapshot st.currentBalance st.transactions host.isoString))) ∧
    ((saveData host st w).2.fallback.cell = w.fallback.cell ∨
      (saveData host st w).2.fallback.cell =
        some (JSON.stringify (snapshot st.currentBalance st.transactions host.isoString))) := by
  obtain ⟨⟨setFn, getFn, cellA⟩, ⟨sr, gr, cellB⟩⟩ := w
  unfold saveData
  rw [parseFloat_num]
  cases setFn with
  | none =>
    cases sr with
    | none => simp [savePrimary, saveFallback, Fallback.setItem]
    | some e => cases e <;> simp [savePrimary, saveFallback, Fallback.setItem, Thrown.message]
  | some b =>
    cases b with
    | raises e =>
      cases e with
      | nullish => simp [savePrimary, Primary.set, Thrown.message]
      | error =>
        cases sr with
        | none => simp [savePrimary, saveFallback, Primary.set, Fallback.setItem, Thrown.message]
        | some e2 =>
          cases e2 <;>
            simp [savePrimary, saveFallback, Primary.set, Fallback.setItem, Thrown.message]
    | replies t stores =>
      cases sr with
      | none =>
        cases t <;> cases stores <;>
          simp [savePrimary, saveFallback, Primary.set, Fallback.setItem]
      | some e2 =>
        cases t <;> cases stores <;> cases e2 <;>
          simp [savePrimary, saveFallback, Primary.set, Fallback.setItem, Thrown.message]

/-- The function `saveData` keeps the system sound. -/
theorem saveData_sound (top : ℚ) (host : Host) (st : Ledger) (w : Storage)
    (h : System.Sound top { ledger := st, storage := w }) :
    System.Sound top { ledger := st, storage := (saveData host st w).2 } := by
  obtain ⟨⟨b, hb, hb0, hbt⟩, hA, hB⟩ := h
  simp only at hb hA hB
  have hc := saveData_cells host st w
  rw [hb] at hc
  refine ⟨⟨b, hb, hb0, hbt⟩, ?_, ?_⟩
  · rcases hc.1 with h | h
    · simp only; rw [h]; exact hA
    · simp only; rw [h]; exact Or.inr ⟨b, st.transactions, host.isoString, hb0, hbt, rfl⟩
  · rcases hc.2 with h | h
    · simp only; rw [h]; exact hB
    · simp only; rw [h]; exact Or.inr ⟨b, st.transactions, host.isoString, hb0, hbt, rfl⟩

/-- The function `processTransfer` keeps the system sound. -/
theorem processTransfer_sound (top : ℚ) (htop : IsDouble top) (host : Host) (page : Page)
    (st : Ledger) (w : Storage) (h : System.Sound top { ledger := st, storage := w }) :
    System.Sound top
      { ledger := (processTransfer host page st w).ledger
        storage := (processTransfer host page st w).storage } := by
  rcases processTransfer_inv host page st w with hr | ⟨av, nv, cv, dv, hp, h1, h2, h3, h4, h5⟩
  · rw [hr.2.1, hr.2.2]; exact h
  · subst hp
    have hnn := processTransfer_within host (Page.ofValues av nv cv dv) st w top htop h.1
    have hacc := processTransfer_accept host st w av nv cv dv h1 h2 h3 h4 h5
    rw [hacc.2.1]
    rw [hacc.1] at hnn ⊢
    exact saveData_sound top host _ w ⟨hnn, h.2.1, h.2.2⟩

/-- From sound cells, `loadData` selects nothing truthy or a snapshot whose balance is
finite and between zero and `top`. -/
theorem loadSelect_sound (top : ℚ) (w : Storage) (hA : CellSound top w.primary.cell)
    (hB : CellSound top w.fallback.cell) :
    (loadSelect w).truthy = false ∨
    ∃ (b : ℚ) (ts : List JSVal) (iso : String),
      0 ≤ b ∧ b ≤ top ∧ loadSelect w = (snapshot (.fin b) ts iso).jsonImage := by
  obtain ⟨⟨setFn, getFn, cellA⟩, ⟨sr, gr, cellB⟩⟩ := w
  simp only at hA hB
  have hprim : loadPrimary ⟨setFn, getFn, cellA⟩ = .abrupt "TypeError" ∨
      loadPrimary ⟨setFn, getFn, cellA⟩ = .normal .null ∨
      ∃ (b : ℚ) (ts : List JSVal) (iso : String),
        0 ≤ b ∧ b ≤ top ∧
          loadPrimary ⟨setFn, getFn, cellA⟩ = .normal (snapshot (.fin b) ts iso).jsonImage := by
    cases getFn with
    | none => right; left; rfl
    | some g =>
      cases g with
      | raises e =>
        cases e with
        | nullish => left; rfl
        | error => right; left; rfl
      | reads =>
        rcases hA with hA | ⟨b, ts, iso, hb0, hbt, hA⟩
        · subst hA; right; left; rfl
        · subst hA; right; right; exact ⟨b, ts, iso, hb0, hbt, rfl⟩
  have hfall : loadFallback ⟨sr, gr, cellB⟩ .null = .abrupt "TypeError" ∨
      loadFallback ⟨sr, gr, cellB⟩ .null = .normal .null ∨
      ∃ (b : ℚ) (ts : List JSVal) (iso : String),
        0 ≤ b ∧ b ≤ top ∧
          loadFallback ⟨sr, gr, cellB⟩ .null = .normal (snapshot (.fin b) ts iso).jsonImage := by
    cases gr with
    | some e =>
      cases e with
      | nullish => left; rfl
      | error => right; left; rfl
    | none =>
      rcases hB with hB | ⟨b, ts, iso, hb0, hbt, hB⟩
      · subst hB; right; left; rfl
      · subst hB; right; right; exact ⟨b, ts, iso, hb0, hbt, rfl⟩
  rcases hprim with hp | hp | ⟨b, ts, iso, hb0, hbt, hp⟩
  · left
    simp [loadSelect, loadRead, hp, JSVal.truthy]
  · have hsel : loadRead ⟨⟨setFn, getFn, cellA⟩, ⟨sr, gr, cellB⟩⟩
        = loadFallback ⟨sr, gr, cellB⟩ .null := by
      simp [loadRead, hp, JSVal.truthy]
    rcases hfall with hf | hf | ⟨b, ts, iso, hb0, hbt, hf⟩
    · left; simp [loadSelect, hsel, hf, JSVal.truthy]
    · left; simp [loadSelect, hsel, hf, JSVal.truthy]
    · right
      exact ⟨b, ts, iso, hb0, hbt, by simp [loadSelect, hsel, hf]⟩
  · right
    refine ⟨b, ts, iso, hb0, hbt, ?_⟩
    simp [loadSelect, loadRead, hp, jsonImage_snapshot, JSVal.truthy]

/-- The function `loadData` keeps the system sound. -/
theorem loadData_sound (top : ℚ) (st : Ledger) (w : Storage)
    (h : System.Sound top { ledger := st, storage := w }) :
    System.Sound top { ledger := (loadData st w).2, storage := w } := by
  rcases loadSelect_sound top w h.2.1 h.2.2 with hf | ⟨b, ts, iso, hb0, hbt, hs⟩
  · rw [loadData_of_falsy st w hf]; exact h
  · rw [loadData_of_snapshot st w b ts iso hs]
    exact ⟨⟨b, rfl, hb0, hbt⟩, h.2.1, h.2.2⟩

/-- Every operation keeps the system sound. -/
theorem Op.apply_sound (top : ℚ) (htop : IsDouble top) (op : Op) (s : System)
    (h : s.Sound top) : (op.apply s).Sound top := by
  cases op with
  | processTransfer host page =>
    exact processTransfer_sound top htop host page s.ledger s.storage h
  | loadData => exact loadData_sound top s.ledger s.storage h
  | saveData host => exact saveData_sound top host s.ledger s.storage h

/-- Every sequence of operations keeps the system sound. -/
theorem runOps_sound (top : ℚ) (htop : IsDouble top) (ops : List Op) (s : System)
    (h : s.Sound top) : (runOps ops s).Sound top := by
  induction ops generalizing s with
  | nil => exact h
  | cons op ops ih => exact ih _ (Op.apply_sound top htop op s h)

/-- Counterexample to C8: from the seed state, one `loadData` against a backend B that
holds a snapshot with balance -5 leaves the balance at -5. -/
theorem loadData_negative_balance :
    (runOps [Op.loadData]
      { ledger := Ledger.initial
        storage := fallbackHolding (.json negativeBalanceSnapshot) }).ledger.currentBalance
      = .fin (-5) ∧ (-5 : ℚ) < 0 := by
  constructor
  · have hsel : loadSelect (fallbackHolding (.json negativeBalanceSnapshot))
        = negativeBalanceSnapshot := rfl
    simp only [runOps, Op.apply]
    rw [loadData_of_balance Ledger.initial _ (.num (.fin (-5))) (by rw [hsel]; rfl)
      (by rw [hsel]; rfl) (by simp) rfl]
    rfl
  · norm_num

/-- C8, amended: start from the seed state (balance 400000000.00, empty history) with both
backends holding nothing, whatever their availability.  After every sequence of
`processTransfer` calls with arbitrary inputs, `saveData` calls and `loadData` calls, the
balance is a finite number that is not negative.  No sign check is made by `loadData`
itself: the bound rests on the backends holding only snapshots that `saveData` wrote. -/
theorem balance_nonNegative_from_seed (ops : List Op) (setFn : Option SetBehaviour)
    (getFn : Option GetBehaviour) (setItemRaises getItemRaises : Option Thrown) :
    ∃ b : ℚ,
      (runOps ops
        { ledger := Ledger.initial
          storage :=
            { primary := { setFn := setFn, getFn := getFn, cell := none }
              fallback := { setItemRaises := setItemRaises, getItemRaises := getItemRaises,
                            cell := none } } }).ledger.currentBalance = .fin b ∧
      0 ≤ b := by
  have h := runOps_sound 400000000 isDouble_400000000 ops
    { ledger := Ledger.initial
      storage :=
        { primary := { setFn := setFn, getFn := getFn, cell := none }
          fallback := { setItemRaises := setItemRaises, getItemRaises := getItemRaises,
                        cell := none } } }
    ⟨⟨400000000, rfl, by norm_num, le_refl _⟩, Or.inl rfl, Or.inl rfl⟩
  obtain ⟨b, hb, hb0, _⟩ := h.1
  exact ⟨b, hb, hb0⟩

/-! ## The amount field -/

/-- The split of a string is never empty. -/
theorem splitDot_ne_nil (cs : List Char) : splitDot cs ≠ [] := by
  cases cs with
  | nil => simp [splitDot]
  | cons c cs =>
    simp only [splitDot]
    split
    · simp
    · split <;> simp

/-- The split has one piece more than the string has points. -/
theorem splitDot_length (cs : List Char) : (splitDot cs).length = cs.count '.' + 1 := by
  induction cs with
  | nil => simp [splitDot]
  | cons c cs ih =>
    simp only [splitDot]
    by_cases hc : c = '.'
    · subst hc
      simp [ih]
    · rw [if_neg hc]
      have hcount : (c :: cs).count '.' = cs.count '.' := by
        rw [List.count_cons]
        simp [hc]
      rw [hcount, ← ih]
      cases hs : splitDot cs with
      | nil => exact absurd hs (splitDot_ne_nil cs)
      | cons p ps => simp

/-- Every character of a piece comes from the string and is not the point. -/
theorem splitDot_mem (cs : List Char) :
    ∀ p ∈ splitDot cs, ∀ c ∈ p, c ∈ cs ∧ c ≠ '.' := by
  induction cs with
  | nil =>
    intro p hp c hc
    simp [splitDot] at hp
    subst hp
    simp at hc
  | cons d cs ih =>
    intro p hp c hc
    simp only [splitDot] at hp
    by_cases hd : d = '.'
    · rw [if_pos hd] at hp
      rcases List.mem_cons.1 hp with h | h
      · subst h; simp at hc
      · have := ih p h c hc
        exact ⟨List.mem_cons_of_mem _ this.1, this.2⟩
    · rw [if_neg hd] at hp
      cases hs : splitDot cs with
      | nil => exact absurd hs (splitDot_ne_nil cs)
      | cons q qs =>
        rw [hs] at hp ih
        rcases List.mem_cons.1 hp with h | h
        · subst h
          rcases List.mem_cons.1 hc with h2 | h2
          · subst h2
            exact ⟨List.mem_cons_self _ _, hd⟩
          · have := ih q (List.mem_cons_self _ _) c h2
            exact ⟨List.mem_cons_of_mem _ this.1, this.2⟩
        · have := ih p (List.mem_cons_of_mem _ h) c hc
          exact ⟨List.mem_cons_of_mem _ this.1, this.2⟩

/-- Every character of the pieces put together comes from the string and is not the
point. -/
theorem splitDot_flatten_mem (cs : List Char) (ps : List (List Char))
    (hps : ∀ p ∈ ps, p ∈ splitDot cs) :
    ∀ c ∈ ps.flatten, c ∈ cs ∧ c ≠ '.' := by
  intro c hc
  obtain ⟨p, hp, hcp⟩ := List.mem_flatten.1 hc
  exact splitDot_mem cs p (hps p hp) c hcp

/-- The three shapes of the value written back by the listener: the filtered value itself
when it has at most one point, or a head piece, one point and a tail without points. -/
theorem amountInputHandler_shape (typed : String) :
    ((amountInputHandler typed).data = typed.data.filter isAmountChar ∧
      (typed.data.filter isAmountChar).count '.' ≤ 1) ∨
    ∃ h r : List Char, (amountInputHandler typed).data = h ++ '.' :: r ∧
      (∀ c ∈ h, c ∈ typed.data.filter isAmountChar ∧ c ≠ '.') ∧
      (∀ c ∈ r, c ∈ typed.data.filter isAmountChar ∧ c ≠ '.') := by
  have hlen := splitDot_length (typed.data.filter isAmountChar)
  have hmem := splitDot_mem (typed.data.filter isAmountChar)
  have hhead : (splitDot (typed.data.filter isAmountChar)).headD []
      ∈ splitDot (typed.data.filter isAmountChar) := by
    cases hs : splitDot (typed.data.filter isAmountChar) with
    | nil => exact absurd hs (splitDot_ne_nil _)
    | cons q qs => simp
  have hfirst :
      ((if (splitDot (typed.data.filter isAmountChar)).length > 2 then
          (splitDot (typed.data.filter isAmountChar)).headD [] ++
            '.' :: ((splitDot (typed.data.filter isAmountChar)).drop 1).flatten
        else typed.data.filter isAmountChar) = typed.data.filter isAmountChar ∧
        (typed.data.filter isAmountChar).count '.' ≤ 1) ∨
      ∃ h r : List Char,
        (if (splitDot (typed.data.filter isAmountChar)).length > 2 then
          (splitDot (typed.data.filter isAmountChar)).headD [] ++
            '.' :: ((splitDot (typed.data.filter isAmountChar)).drop 1).flatten
        else typed.data.filter isAmountChar) = h ++ '.' :: r ∧
        (∀ c ∈ h, c ∈ typed.data.filter isAmountChar ∧ c ≠ '.') ∧
        (∀ c ∈ r, c ∈ typed.data.filter isAmountChar ∧ c ≠ '.') := by
    by_cases hgt : (splitDot (typed.data.filter isAmountChar)).length > 2
    · right
      rw [if_pos hgt]
      refine ⟨_, _, rfl, hmem _ hhead, ?_⟩
      exact splitDot_flatten_mem _ _ (fun p hp => List.mem_of_mem_drop hp)
    · left
      rw [if_neg hgt]
      exact ⟨rfl, by omega⟩
  unfold amountInputHandler
  simp only
  cases hp1 : (splitDot (typed.data.filter isAmountChar))[1]? with
  | none => exact hfirst
  | some p1 =>
    by_cases hcut : (!p1.isEmpty && decide (p1.length > 2)) = true
    · right
      simp only [hcut, if_true]
      have hp1mem : p1 ∈ splitDot (typed.data.filter isAmountChar) :=
        List.getElem?_mem hp1
      refine ⟨_, _, rfl, hmem _ hhead, ?_⟩
      intro c hc
      exact hmem p1 hp1mem c (List.mem_of_mem_take hc)
    · simp only [hcut]
      exact hfirst

/-- The value written back holds only the characters `0` to `9` and the point. -/
theorem amountInputHandler_chars (typed : String) :
    ∀ c ∈ (amountInputHandler typed).data, isDecimalDigit c = true ∨ c = '.' := by
  have hfilter : ∀ c ∈ typed.data.filter isAmountChar, isDecimalDigit c = true ∨ c = '.' := by
    intro c hc
    have := (List.mem_filter.1 hc).2
    simpa [isAmountChar] using this
  intro c hc
  rcases amountInputHandler_shape typed with ⟨heq, _⟩ | ⟨h, r, heq, hh, hr⟩
  · rw [heq] at hc
    exact hfilter c hc
  · rw [heq] at hc
    rcases List.mem_append.1 hc with h1 | h1
    · exact hfilter c (hh c h1).1
    · rcases List.mem_cons.1 h1 with h2 | h2
      · exact Or.inr h2
      · exact hfilter c (hr c h2).1

/-- The value written back holds at most one point. -/
theorem amountInputHandler_one_point (typed : String) :
    (amountInputHandler typed).data.count '.' ≤ 1 := by
  rcases amountInputHandler_shape typed with ⟨heq, hle⟩ | ⟨h, r, heq, hh, hr⟩
  · rw [heq]; exact hle
  · rw [heq]
    have h0 : h.count '.' = 0 := List.count_eq_zero.2 (fun hm => (hh _ hm).2 rfl)
    have r0 : r.count '.' = 0 := List.count_eq_zero.2 (fun hm => (hr _ hm).2 rfl)
    simp [List.count_append, h0, r0]

/-- C11, evaluated on the code: when the field holds `1.2.34` (a point typed after the
first digit of `12.34`), the listener writes back `1.234`, which has three digits after
the decimal point.  The merge of the pieces rewrites `value`, but the two-decimal limit
still looks at the second piece of the first split, here `2`. -/
theorem amountInputHandler_three_decimals :
    amountInputHandler "1.2.34" = "1.234" ∧
    decimalsOf (amountInputHandler "1.2.34") = 3 ∧
    ¬ decimalsOf (amountInputHandler "1.2.34") ≤ 2 := by
  decide

end KhanBank
